import Mathlib

/-!
# Framebuffer device helper routines (`hw/display/framebuffer.c`)

A shallow embedding of `framebuffer_update_display`, `framebuffer_swap` and
`framebuffer_update_display_swap_pixman`, together with the properties of the
dirty-row scan that the specification states about them.

Conventions of the embedding.

* A C `int` is an `Int`; every `int` multiplication of the source is wrapped to
  32 bits by `wrap_int`.  `hwaddr` and `ram_addr_t` are 64-bit unsigned and are
  `Nat` values reduced modulo `2^64`.
* Pointers are byte offsets: `src` is an offset from `src_base` (the mapped
  block), `dest` is an offset from `surface_data(ds)`.
* The collaborators (memory-region lookup, mapping, dirty bitmap) are not part of
  the two source files; they are parameters or are modelled from the
  specification, and every call to them is recorded in a trace of `Event`s.
* `Except.error` stands for a fatal stop (`assert`, `g_assert_not_reached`).
-/

namespace Framebuffer

/-! ## Machine integers -/

/-- Value of a C `int` expression: 32-bit two's-complement wrap-around. -/
def wrap_int (x : Int) : Int := (x + 2147483648) % 4294967296 - 2147483648

/-- Conversion of a C `int` to the 64-bit unsigned `hwaddr` / `ram_addr_t`
(sign extension followed by reduction modulo `2^64`). -/
def to_hwaddr (x : Int) : Nat := (x % 18446744073709551616).toNat

/-- Addition on `ram_addr_t` (64-bit unsigned). -/
def addr_add (a b : Nat) : Nat := (a + b) % 18446744073709551616

/-! ## Collaborators -/

/-- Modelled from the spec: the external dirty bitmap (its storage lives in the
memory subsystem, outside the two source files).  `dirty` is the set of byte
offsets of the backing region that are visibly dirty for the display client;
`pending` is dirty state the tracker has recorded but not yet made visible. -/
structure DirtyBitmap where
  dirty : List Nat
  pending : List Nat
deriving DecidableEq, Repr

/-- Byte `b` lies in `[addr, addr + size)`. -/
def in_range (addr size b : Nat) : Bool := decide (addr ≤ b ∧ b < addr + size)

/-- Modelled from the spec: `sync_dirty(region)`, which "forces any pending
dirty state to be visible before the scan reads it". -/
def memory_region_sync_dirty_bitmap (bm : DirtyBitmap) : DirtyBitmap :=
  { dirty := bm.dirty ++ bm.pending, pending := [] }

/-- Modelled from the spec: `query_dirty(region, offset, length, tag)`, "is any
byte in `[offset, offset+length)` dirty". -/
def memory_region_get_dirty (bm : DirtyBitmap) (addr size : Nat) : Bool :=
  bm.dirty.any (in_range addr size)

/-- Modelled from the spec: `clear_dirty(region, offset, length, tag)`, the
"bulk clear over `[offset, offset+length)`". -/
def memory_region_reset_dirty (bm : DirtyBitmap) (addr size : Nat) : DirtyBitmap :=
  { bm with dirty := bm.dirty.filter (fun b => !(in_range addr size b)) }

/-- A memory region, as far as the renderer looks at it. -/
structure MemoryRegion where
  ram : Bool
deriving DecidableEq, Repr

/-- The `MemoryRegionSection` returned by `memory_region_find`; `size` is
`int128_get64(mem_section.size)`, `mr = none` is the null region. -/
structure MemoryRegionSection where
  mr : Option MemoryRegion
  size : Nat
  offset_within_region : Nat
  offset_within_address_space : Nat
deriving DecidableEq, Repr

/-- Modelled from the spec: `memory_region_is_ram`; a region that is absent is
"not a plain readable/writable memory block". -/
def memory_region_is_ram (mr : Option MemoryRegion) : Bool :=
  match mr with
  | some r => r.ram
  | none => false

/-- The address-space collaborator: `memory_region_find(address_space, base, len)`
and `cpu_physical_memory_map(base, &len, 0)`.  The latter answers `none` for a
null pointer and `some len1` for a mapping of `len1` bytes (the value left in
`*plen`). -/
structure AddressSpace where
  memory_region_find : Nat → Nat → MemoryRegionSection
  cpu_physical_memory_map : Nat → Nat → Option Nat

/-- The swap modes of `enum framebuffer_swapmode` (framebuffer.h). -/
inductive framebuffer_swapmode where
  | FB_SWAP_NONE
  | FB_SWAP_16_BYTES
  | FB_SWAP_32_BYTES
  | FB_SWAP_32_WORDS
deriving DecidableEq, Repr

/-- One byte of memory. -/
abbrev Byte := Fin 256

/-- Calls made to the collaborators, in program order.  `fn` is the call of the
row transform `fn(state, dest, src, cols, dest_col_pitch)`; its first field is
the loop variable `i` at the time of the call (the row), which the transform
itself does not receive. -/
inductive Event where
  | find (base len : Nat)
  | sync
  | map (base len : Nat)
  | unmap (len : Nat)
  | get_dirty (addr size : Nat)
  | fn (row dest src cols dest_col_pitch : Int)
  | reset_dirty (addr size : Nat)
  | unref
  | linebuf_create (cols : Int)
  | linebuf_copy (cols : Int) (row : Int) (line : List Byte)
  | linebuf_unref
deriving DecidableEq, Repr

/-- Fatal stops. -/
inductive Fatal where
  | assert_failed
  | not_reached
  | unbounded_loop
deriving DecidableEq, Repr

/-- What a call leaves behind: the two out-parameters, the dirty bitmap and the
trace of collaborator calls.  `last_row` is the value of `*last_row` after the
call (the caller's value when the call does not write it). -/
structure Outcome where
  first_row : Int
  last_row : Int
  bitmap : DirtyBitmap
  trace : List Event
deriving DecidableEq, Repr

/-! ## `framebuffer_update_display` -/

/-- The loop-carried variables of the row loop. -/
structure Cursor where
  i : Int
  addr : Nat
  src : Int
  dest : Int
  first : Int
  last : Int
deriving DecidableEq, Repr

/-- The row loop `for (; i < rows; i++)` of `framebuffer_update_display`
(lines 90-102), run for at most `fuel` iterations; returns the variables at
loop exit and the calls made. -/
def scan_rows (bm : DirtyBitmap) (cols rows src_width dest_row_pitch dest_col_pitch
    invalidate : Int) : Nat → Cursor → Cursor × List Event
  | 0, c => (c, [])
  | fuel + 1, c =>
    if c.i < rows then
      let dirty := memory_region_get_dirty bm c.addr (to_hwaddr src_width)
      let touched : Bool := dirty || decide (invalidate ≠ 0)
      let c1 : Cursor :=
        if touched then
          { c with first := if c.first = -1 then c.i else c.first, last := c.i }
        else c
      let ev : List Event :=
        if touched then
          [Event.get_dirty c.addr (to_hwaddr src_width),
           Event.fn c.i c.dest c.src cols dest_col_pitch]
        else [Event.get_dirty c.addr (to_hwaddr src_width)]
      let r := scan_rows bm cols rows src_width dest_row_pitch dest_col_pitch invalidate fuel
        { c1 with
          i := c.i + 1
          addr := addr_add c.addr (to_hwaddr src_width)
          src := c.src + src_width
          dest := c.dest + dest_row_pitch }
      (r.1, ev ++ r.2)
    else (c, [])

/-- The destination base after the pre-adjustment of lines 77-82, as an offset
from `surface_data(ds)`. -/
def dest_base (cols rows dest_row_pitch dest_col_pitch : Int) : Int :=
  let dest : Int := 0
  let dest := if dest_col_pitch < 0 then dest - wrap_int (dest_col_pitch * wrap_int (cols - 1))
    else dest
  if dest_row_pitch < 0 then dest - wrap_int (dest_row_pitch * wrap_int (rows - 1)) else dest

/-- The loop variables on entry to the row loop of `framebuffer_update_display`
(lines 76-88 and the initialiser `last = 0` of line 45): `src = src_base`,
`dest` pre-adjusted, `first = -1`, `addr = mem_section.offset_within_region`,
then `addr += i * src_width; src += i * src_width; dest += i * dest_row_pitch`. -/
def start_cursor (offset_within_region : Nat)
    (cols rows src_width dest_row_pitch dest_col_pitch i : Int) : Cursor :=
  { i := i
    addr := addr_add offset_within_region (to_hwaddr (wrap_int (i * src_width)))
    src := wrap_int (i * src_width)
    dest := dest_base cols rows dest_row_pitch dest_col_pitch + wrap_int (i * dest_row_pitch)
    first := -1
    last := 0 }

/-- `framebuffer_update_display` (lines 26-113).  `first_row` and `last_row` are
the values of `*first_row` and `*last_row` on entry.  The row loop is given
`rows - i` iterations, which is what it needs to leave through its own test
(`scan_rows_exit`, `scan_rows_enough_fuel`). -/
def framebuffer_update_display (aspace : AddressSpace) (bm : DirtyBitmap) (base : Nat)
    (cols rows src_width dest_row_pitch dest_col_pitch invalidate : Int)
    (first_row last_row : Int) : Except Fatal Outcome :=
  let i := first_row
  let src_len := to_hwaddr (wrap_int (src_width * rows))
  let mem_section := aspace.memory_region_find base src_len
  let mem := mem_section.mr
  if mem_section.size ≠ src_len ∨ memory_region_is_ram mem_section.mr = false then
    .ok { first_row := -1, last_row := last_row, bitmap := bm,
          trace := [Event.find base src_len, Event.unref] }
  else if mem.isNone then .error Fatal.assert_failed
  else if mem_section.offset_within_address_space ≠ base then .error Fatal.assert_failed
  else
    let bm1 := memory_region_sync_dirty_bitmap bm
    match aspace.cpu_physical_memory_map base src_len with
    | none =>
      .ok { first_row := -1, last_row := last_row, bitmap := bm1,
            trace := [Event.find base src_len, Event.sync, Event.map base src_len,
                      Event.unref] }
    | some mapped_len =>
      if mapped_len ≠ to_hwaddr (wrap_int (src_width * rows)) then
        .ok { first_row := -1, last_row := last_row, bitmap := bm1,
              trace := [Event.find base src_len, Event.sync, Event.map base src_len,
                        Event.unmap mapped_len, Event.unref] }
      else
        let c0 := start_cursor mem_section.offset_within_region cols rows src_width
          dest_row_pitch dest_col_pitch i
        let r := scan_rows bm1 cols rows src_width dest_row_pitch dest_col_pitch invalidate
          (rows - i).toNat c0
        if r.1.first < 0 then
          .ok { first_row := -1, last_row := last_row, bitmap := bm1,
                trace := [Event.find base src_len, Event.sync, Event.map base src_len]
                  ++ r.2 ++ [Event.unmap mapped_len, Event.unref] }
        else
          .ok { first_row := r.1.first, last_row := r.1.last,
                bitmap := memory_region_reset_dirty bm1 mem_section.offset_within_region
                  mapped_len,
                trace := [Event.find base src_len, Event.sync, Event.map base src_len]
                  ++ r.2 ++ [Event.unmap mapped_len,
                    Event.reset_dirty mem_section.offset_within_region mapped_len,
                    Event.unref] }

/-! ## `framebuffer_swap` -/

/-- Modelled from the spec: `bswap16` (the byte-swap helper of the host utility
headers, outside the two source files) "swaps byte order within a 16-bit unit". -/
def bswap16 (x : Nat) : Nat := (x % 256) * 256 + (x / 256) % 256

/-- Modelled from the spec: `bswap32` (the byte-swap helper of the host utility
headers, outside the two source files) "swaps byte order within a 32-bit unit". -/
def bswap32 (x : Nat) : Nat :=
  (x % 256) * 16777216 + (x / 256 % 256) * 65536 + (x / 65536 % 256) * 256
    + (x / 16777216) % 256

/-- The value written in mode `FB_SWAP_32_WORDS` (lines 149-150) for the source
unit `x`:
`(*s32 & 0x0000ffff << 16) | (*s32 & 0xffff0000 >> 16)`.
In C a shift binds tighter than `&`, so the operands of the two `&` are
`0x0000ffff << 16` and `0xffff0000 >> 16`; the result is a `uint32_t`. -/
def swap_words (x : Nat) : Nat :=
  ((x &&& ((0x0000ffff <<< 16) % 4294967296)) ||| (x &&& (0xffff0000 >>> 16))) % 4294967296

/-- The line buffer (a `pixman_image_t` of height one), as far as
`pixman_image_get_stride` and `pixman_image_get_data` show it. -/
structure pixman_image_t where
  stride : Int
  data : Nat → Byte

/-- The byte holding the low eight bits of `v`. -/
def to_byte (v : Nat) : Byte := ⟨v % 256, Nat.mod_lt _ (by decide)⟩

/-- Read of a `uint16_t` at byte offset `p`; `be` is the byte order of the host. -/
def load16 (be : Bool) (m : Int → Byte) (p : Int) : Nat :=
  if be then (m p).val * 256 + (m (p + 1)).val else (m p).val + (m (p + 1)).val * 256

/-- Read of a `uint32_t` at byte offset `p`; `be` is the byte order of the host. -/
def load32 (be : Bool) (m : Int → Byte) (p : Int) : Nat :=
  if be then
    (m p).val * 16777216 + (m (p + 1)).val * 65536 + (m (p + 2)).val * 256 + (m (p + 3)).val
  else
    (m p).val + (m (p + 1)).val * 256 + (m (p + 2)).val * 65536 + (m (p + 3)).val * 16777216

/-- Write of the `uint16_t` value `v` at byte offset `p`. -/
def store16 (be : Bool) (d : Nat → Byte) (p : Nat) (v : Nat) : Nat → Byte :=
  fun q =>
    if q = p then to_byte (if be then v / 256 else v)
    else if q = p + 1 then to_byte (if be then v else v / 256)
    else d q

/-- Write of the `uint32_t` value `v` at byte offset `p`. -/
def store32 (be : Bool) (d : Nat → Byte) (p : Nat) (v : Nat) : Nat → Byte :=
  fun q =>
    if q = p then to_byte (if be then v / 16777216 else v)
    else if q = p + 1 then to_byte (if be then v / 65536 else v / 256)
    else if q = p + 2 then to_byte (if be then v / 256 else v / 65536)
    else if q = p + 3 then to_byte (if be then v else v / 16777216)
    else d q

/-- The loops `while (swaps) { *d = f(*s); s++; d++; swaps--; }` of
`framebuffer_swap`: `unit` is the size of the unit in bytes and `body s d data`
the effect of `*d = f(*s)` with `s`, `d` the byte offsets of the two pointers.
The counter is an `int`; a loop still running when the fuel is used up is
reported as `unbounded_loop`. -/
def swap_loop (unit : Nat) (body : Int → Nat → (Nat → Byte) → (Nat → Byte)) :
    Nat → Int → Int → Nat → (Nat → Byte) → Except Fatal (Nat → Byte)
  | 0, swaps, _, _, data => if swaps ≠ 0 then .error Fatal.unbounded_loop else .ok data
  | fuel + 1, swaps, s, d, data =>
    if swaps ≠ 0 then
      swap_loop unit body fuel (swaps - 1) (s + unit) (d + unit) (body s d data)
    else .ok data

/-- `framebuffer_swap` (lines 115-155): `m` is the memory `src` points into and
`src` the byte offset of the row.  The counter `swaps` starts at `stride / 2` or
`stride / 4` (C division, rounding toward zero) and the loop is given exactly
that many iterations, so a negative count, which never counts down to zero, is
a fatal stop. -/
def framebuffer_swap (be : Bool) (swapmode : framebuffer_swapmode) (dest : pixman_image_t)
    (m : Int → Byte) (src : Int) : Except Fatal pixman_image_t :=
  match swapmode with
  | .FB_SWAP_NONE => .error Fatal.not_reached
  | .FB_SWAP_16_BYTES =>
    let swaps := Int.tdiv dest.stride 2
    (swap_loop 2 (fun s d data => store16 be data d (bswap16 (load16 be m s)))
      swaps.toNat swaps src 0 dest.data).map (fun data => { dest with data := data })
  | .FB_SWAP_32_BYTES =>
    let swaps := Int.tdiv dest.stride 4
    (swap_loop 4 (fun s d data => store32 be data d (bswap32 (load32 be m s)))
      swaps.toNat swaps src 0 dest.data).map (fun data => { dest with data := data })
  | .FB_SWAP_32_WORDS =>
    let swaps := Int.tdiv dest.stride 4
    (swap_loop 4 (fun s d data => store32 be data d (swap_words (load32 be m s)))
      swaps.toNat swaps src 0 dest.data).map (fun data => { dest with data := data })

/-- The bytes of the line buffer, `stride` of them. -/
def line_bytes (l : pixman_image_t) : List Byte := (List.range l.stride.toNat).map l.data

/-! ## `framebuffer_update_display_swap_pixman` -/

/-- The `DisplaySurface`, as far as `surface_width`, `surface_height` and
`surface_stride` show it. -/
structure DisplaySurface where
  width : Int
  height : Int
  stride : Int
deriving DecidableEq, Repr

/-- The row loop of `framebuffer_update_display_swap_pixman` (lines 213-225).
The `dest` field of the cursor is not used by this variant. -/
def scan_rows_swap (be : Bool) (bm : DirtyBitmap) (m : Int → Byte)
    (swapmode : framebuffer_swapmode) (cols rows src_width invalidate : Int) :
    Nat → Cursor → pixman_image_t → Except Fatal (Cursor × List Event)
  | 0, c, _ => .ok (c, [])
  | fuel + 1, c, linebuf =>
    if c.i < rows then
      let dirty := memory_region_get_dirty bm c.addr (to_hwaddr src_width)
      let touched : Bool := dirty || decide (invalidate ≠ 0)
      let next : Cursor → Cursor := fun c1 =>
        { c1 with
          i := c.i + 1
          addr := addr_add c.addr (to_hwaddr src_width)
          src := c.src + src_width }
      if touched then
        match framebuffer_swap be swapmode linebuf m c.src with
        | .error e => .error e
        | .ok linebuf1 =>
          match scan_rows_swap be bm m swapmode cols rows src_width invalidate fuel
              (next { c with first := if c.first = -1 then c.i else c.first, last := c.i })
              linebuf1 with
          | .error e => .error e
          | .ok r =>
            .ok (r.1, [Event.get_dirty c.addr (to_hwaddr src_width),
                       Event.linebuf_copy cols c.i (line_bytes linebuf1)] ++ r.2)
      else
        match scan_rows_swap be bm m swapmode cols rows src_width invalidate fuel
            (next c) linebuf with
        | .error e => .error e
        | .ok r => .ok (r.1, [Event.get_dirty c.addr (to_hwaddr src_width)] ++ r.2)
    else .ok (c, [])

/-- The loop variables on entry to the row loop of
`framebuffer_update_display_swap_pixman` (lines 205-210 and the initialiser
`last = 0` of line 174). -/
def start_cursor_swap (offset_within_region : Nat) (src_width i : Int) : Cursor :=
  { i := i
    addr := addr_add offset_within_region (to_hwaddr (wrap_int (i * src_width)))
    src := wrap_int (i * src_width)
    dest := 0
    first := -1
    last := 0 }

/-- `framebuffer_update_display_swap_pixman` (lines 157-238).  `m` is the content
of the mapped block (byte offsets from `src_base`), `qemu_pixman_linebuf_create`
the allocator of the line buffer for the given format and width. -/
def framebuffer_update_display_swap_pixman (be : Bool) (aspace : AddressSpace)
    (qemu_pixman_linebuf_create : Nat → Int → pixman_image_t) (m : Int → Byte)
    (bm : DirtyBitmap) (ds : DisplaySurface) (base : Nat)
    (swapmode : framebuffer_swapmode) (format : Nat) (invalidate : Int)
    (first_row last_row : Int) : Except Fatal Outcome :=
  let cols := ds.width
  let rows := ds.height
  let src_width := ds.stride
  let i := first_row
  let src_len := to_hwaddr (wrap_int (src_width * rows))
  let mem_section := aspace.memory_region_find base src_len
  let mem := mem_section.mr
  if mem_section.size ≠ src_len ∨ memory_region_is_ram mem_section.mr = false then
    .ok { first_row := -1, last_row := last_row, bitmap := bm,
          trace := [Event.find base src_len, Event.unref] }
  else if mem.isNone then .error Fatal.assert_failed
  else if mem_section.offset_within_address_space ≠ base then .error Fatal.assert_failed
  else
    let bm1 := memory_region_sync_dirty_bitmap bm
    match aspace.cpu_physical_memory_map base src_len with
    | none =>
      .ok { first_row := -1, last_row := last_row, bitmap := bm1,
            trace := [Event.find base src_len, Event.sync, Event.map base src_len,
                      Event.unref] }
    | some mapped_len =>
      if mapped_len ≠ to_hwaddr (wrap_int (src_width * rows)) then
        .ok { first_row := -1, last_row := last_row, bitmap := bm1,
              trace := [Event.find base src_len, Event.sync, Event.map base src_len,
                        Event.unmap mapped_len, Event.unref] }
      else
        let c0 := start_cursor_swap mem_section.offset_within_region src_width i
        let linebuf := qemu_pixman_linebuf_create format cols
        match scan_rows_swap be bm1 m swapmode cols rows src_width invalidate
            (rows - i).toNat c0 linebuf with
        | .error e => .error e
        | .ok r =>
          if r.1.first < 0 then
            .ok { first_row := -1, last_row := last_row, bitmap := bm1,
                  trace := [Event.find base src_len, Event.sync, Event.map base src_len,
                            Event.linebuf_create cols]
                    ++ r.2 ++ [Event.linebuf_unref, Event.unmap mapped_len, Event.unref] }
          else
            .ok { first_row := r.1.first, last_row := r.1.last,
                  bitmap := memory_region_reset_dirty bm1 mem_section.offset_within_region
                    mapped_len,
                  trace := [Event.find base src_len, Event.sync, Event.map base src_len,
                            Event.linebuf_create cols]
                    ++ r.2 ++ [Event.linebuf_unref, Event.unmap mapped_len,
                      Event.reset_dirty mem_section.offset_within_region mapped_len,
                      Event.unref] }

/-! ## Vocabulary of the properties -/

/-- The byte length `src_len = src_width * rows` as line 54 computes it: an `int`
product converted to `hwaddr`. -/
def block_len (src_width rows : Int) : Nat := to_hwaddr (wrap_int (src_width * rows))

/-- The section `memory_region_find` answers for the block. -/
def block_section (aspace : AddressSpace) (base : Nat) (src_width rows : Int) :
    MemoryRegionSection :=
  aspace.memory_region_find base (block_len src_width rows)

/-- The region lookup succeeds: the section has exactly the requested size, its
region is RAM, and it starts at `base` (the two assertions of lines 62-63 hold). -/
def region_resolves (aspace : AddressSpace) (base : Nat) (src_width rows : Int) : Prop :=
  (block_section aspace base src_width rows).size = block_len src_width rows ∧
  memory_region_is_ram (block_section aspace base src_width rows).mr = true ∧
  (block_section aspace base src_width rows).offset_within_address_space = base

/-- The mapping succeeds with the full length. -/
def block_maps (aspace : AddressSpace) (base : Nat) (src_width rows : Int) : Prop :=
  aspace.cpu_physical_memory_map base (block_len src_width rows)
    = some (block_len src_width rows)

/-- The row `c.i` is touched: its span is dirty or `invalidate` is set. -/
def touched (bm : DirtyBitmap) (src_width invalidate : Int) (c : Cursor) : Bool :=
  memory_region_get_dirty bm c.addr (to_hwaddr src_width) || decide (invalidate ≠ 0)

/-- The cursor after the iteration for a touched row. -/
def step_touched (src_width dest_row_pitch : Int) (c : Cursor) : Cursor :=
  { i := c.i + 1, addr := addr_add c.addr (to_hwaddr src_width), src := c.src + src_width,
    dest := c.dest + dest_row_pitch, first := if c.first = -1 then c.i else c.first,
    last := c.i }

/-- The cursor after the iteration for a skipped row. -/
def step_clean (src_width dest_row_pitch : Int) (c : Cursor) : Cursor :=
  { c with i := c.i + 1, addr := addr_add c.addr (to_hwaddr src_width),
           src := c.src + src_width, dest := c.dest + dest_row_pitch }

/-- Span invariant of the row loop started at row `r0`: either nothing is
recorded (`first = -1`) or `r0 ≤ first ≤ last`, with `last` a row already
visited and below `rows`. -/
def span_ok (r0 rows : Int) (c : Cursor) : Prop :=
  c.first = -1 ∨ (r0 ≤ c.first ∧ c.first ≤ c.last ∧ c.last < rows ∧ c.last < c.i)

/-- The rows on which the row transform was called, in call order: the calls of
`fn` in the generic variant, the swap-and-blit of a line in the swap variant. -/
def transform_rows (t : List Event) : List Int :=
  t.filterMap (fun e => match e with
    | Event.fn row _ _ _ _ => some row
    | Event.linebuf_copy _ row _ => some row
    | _ => none)

/-- The rows `r, r + 1, ..., rows - 1` in ascending order (empty when `rows ≤ r`). -/
def rows_from (r rows : Int) : List Int :=
  (List.range (rows - r).toNat).map (fun (k : Nat) => r + (k : Int))

/-- The event is a call of the row transform: `fn` in the generic variant, the
swap-and-blit of one line in the swap variant. -/
def is_transform (e : Event) : Bool :=
  match e with
  | Event.fn _ _ _ _ _ => true
  | Event.linebuf_copy _ _ _ => true
  | _ => false

/-- The event is a query of the dirty bitmap. -/
def is_query (e : Event) : Bool :=
  match e with
  | Event.get_dirty _ _ => true
  | _ => false

/-- The event changes the dirty bitmap (`sync` or `reset_dirty`). -/
def is_bitmap_mutation (e : Event) : Bool :=
  match e with
  | Event.sync => true
  | Event.reset_dirty _ _ => true
  | _ => false

/-- The event is the bulk clear of the dirty bitmap. -/
def is_clear (e : Event) : Bool :=
  match e with
  | Event.reset_dirty _ _ => true
  | _ => false

/-- The event is a `map` or `unmap` of the block. -/
def is_mapping (e : Event) : Bool :=
  match e with
  | Event.map _ _ => true
  | Event.unmap _ => true
  | _ => false

/-- The value is representable as a C `int`. -/
@[reducible] def fits_int (x : Int) : Prop := -2147483648 ≤ x ∧ x < 2147483648

/-- Start of the byte span of row `i` in the region, as the specification
names it: `offset_within_region + i * src_width`, a `ram_addr_t`. -/
def spec_row_addr (off : Nat) (src_width i : Int) : Nat := to_hwaddr ((off : Int) + i * src_width)

/-- Row `i` is to be drawn according to the specification: the query of its
`src_width`-byte span answers dirty, or `invalidate` is nonzero. -/
def spec_row_touched (bm : DirtyBitmap) (off : Nat) (src_width invalidate i : Int) : Bool :=
  memory_region_get_dirty bm (spec_row_addr off src_width i) (to_hwaddr src_width)
    || decide (invalidate ≠ 0)

/-- The size in bytes of the unit a swap mode works on. -/
def unit_size (mode : framebuffer_swapmode) : Nat :=
  match mode with
  | .FB_SWAP_NONE => 1
  | .FB_SWAP_16_BYTES => 2
  | .FB_SWAP_32_BYTES => 4
  | .FB_SWAP_32_WORDS => 4

/-- The position, within its unit, of the source byte that `framebuffer_swap`
stores at position `j` of the destination unit (established by
`framebuffer_swap_bytes`): bytes reversed in the two byte modes, bytes in place
in mode `FB_SWAP_32_WORDS`. -/
def unit_source (mode : framebuffer_swapmode) (j : Nat) : Nat :=
  match mode with
  | .FB_SWAP_NONE => j
  | .FB_SWAP_16_BYTES => 1 - j
  | .FB_SWAP_32_BYTES => 3 - j
  | .FB_SWAP_32_WORDS => j

/-- `n` iterations of the loop body of `swap_loop`. -/
def swap_units (unit : Nat) (body : Int → Nat → (Nat → Byte) → (Nat → Byte)) :
    Nat → Int → Nat → (Nat → Byte) → (Nat → Byte)
  | 0, _, _, data => data
  | n + 1, s, d, data => swap_units unit body n (s + unit) (d + unit) (body s d data)

/-- The bytes of a line buffer read as a source row (byte offset `q` of the row
is byte `q` of the line). -/
def line_memory (l : pixman_image_t) : Int → Byte := fun q => l.data q.toNat

/-- The 32-bit unit with the two 16-bit halves of `x` exchanged, the value the
specification gives for mode `FB_SWAP_32_WORDS`:
`((x & 0x0000ffff) << 16) | ((x & 0xffff0000) >> 16)` modulo `2^32`. -/
def spec_swap_words (x : Nat) : Nat :=
  (((x &&& 0x0000ffff) <<< 16) ||| ((x &&& 0xffff0000) >>> 16)) % 4294967296

/-! ## Concrete collaborators used to instantiate the theorems -/

/-- An address space in which every block is backed by RAM of exactly the
requested size, starting at offset `16` of its region, and maps in full. -/
def demo_space : AddressSpace :=
  { memory_region_find := fun base len =>
      { mr := some { ram := true }, size := len, offset_within_region := 16,
        offset_within_address_space := base }
    cpu_physical_memory_map := fun _ len => some len }

/-- An address space whose region lookup answers one byte more than requested. -/
def demo_space_mismatch : AddressSpace :=
  { memory_region_find := fun base len =>
      { mr := some { ram := true }, size := len + 1, offset_within_region := 16,
        offset_within_address_space := base }
    cpu_physical_memory_map := fun _ len => some len }

/-- An address space whose mapping stops one byte short. -/
def demo_space_short : AddressSpace :=
  { memory_region_find := fun base len =>
      { mr := some { ram := true }, size := len, offset_within_region := 16,
        offset_within_address_space := base }
    cpu_physical_memory_map := fun _ len => some (len - 1) }

/-- A line buffer allocator for a 32-bit format: `4 * cols` bytes, zeroed. -/
def demo_linebuf (_format : Nat) (cols : Int) : pixman_image_t :=
  { stride := cols * 4, data := fun _ => 0 }

/-- A mapped block whose byte at offset `p` is `p + 1` (modulo 256). -/
def demo_block : Int → Byte := fun p => to_byte (p.toNat + 1)

/-- A line buffer of four zero bytes. -/
def demo_line4 : pixman_image_t := { stride := 4, data := fun _ => 0 }

/-- A source row holding the bytes `0x44, 0x33, 0x22, 0x11`, i.e. the 32-bit
unit `0x11223344` on a little-endian host. -/
def demo_unit_row : Int → Byte := fun p =>
  if p = 0 then 0x44 else if p = 1 then 0x33 else if p = 2 then 0x22 else if p = 3 then 0x11
  else 0

/-- The two cursors walk the same rows: they agree on the row, the bitmap
address and the recorded span (source and destination offsets may differ). -/
def same_walk (c c2 : Cursor) : Prop :=
  c.i = c2.i ∧ c.addr = c2.addr ∧ c.first = c2.first ∧ c.last = c2.last

/-- The event is the lookup of the region. -/
def is_find (e : Event) : Bool :=
  match e with
  | Event.find _ _ => true
  | _ => false

/-- The event is the mapping request. -/
def is_map (e : Event) : Bool :=
  match e with
  | Event.map _ _ => true
  | _ => false

/-- The event is the unmapping of the block. -/
def is_unmap (e : Event) : Bool :=
  match e with
  | Event.unmap _ => true
  | _ => false

/-- The event is the creation of the line buffer. -/
def is_linebuf_create (e : Event) : Bool :=
  match e with
  | Event.linebuf_create _ => true
  | _ => false

/-- The event is one of the calls both entry points make to the memory
collaborators: find, sync, map, query, unmap, clear, unref. -/
def is_skeleton (e : Event) : Bool :=
  match e with
  | Event.fn _ _ _ _ _ => false
  | Event.linebuf_create _ => false
  | Event.linebuf_copy _ _ _ => false
  | Event.linebuf_unref => false
  | _ => true

/-- The region lookup fails: wrong size or not RAM (the test of lines 58-59). -/
def region_mismatch (aspace : AddressSpace) (base : Nat) (src_width rows : Int) : Prop :=
  (block_section aspace base src_width rows).size ≠ block_len src_width rows ∨
  memory_region_is_ram (block_section aspace base src_width rows).mr = false

/-- The byte length an event carries, for the three calls that take the length of
the block: the region lookup, the mapping request and the clear. -/
def event_len (e : Event) : Option Nat :=
  match e with
  | Event.find _ len => some len
  | Event.map _ len => some len
  | Event.reset_dirty _ len => some len
  | _ => none

theorem scan_rows_done (bm : DirtyBitmap) (cols rows sw drp dcp inv : Int) (fuel : Nat)
    (c : Cursor) (h : ¬ c.i < rows) :
    scan_rows bm cols rows sw drp dcp inv fuel c = (c, []) := by
  cases fuel with
  | zero => rfl
  | succ n => simp only [scan_rows, h, if_false]

theorem scan_rows_touched (bm : DirtyBitmap) (cols rows sw drp dcp inv : Int) (fuel : Nat)
    (c : Cursor) (h : c.i < rows) (ht : touched bm sw inv c = true) :
    scan_rows bm cols rows sw drp dcp inv (fuel + 1) c =
      ((scan_rows bm cols rows sw drp dcp inv fuel (step_touched sw drp c)).1,
        [Event.get_dirty c.addr (to_hwaddr sw), Event.fn c.i c.dest c.src cols dcp]
          ++ (scan_rows bm cols rows sw drp dcp inv fuel (step_touched sw drp c)).2) := by
  unfold touched at ht
  simp only [scan_rows, h, if_true, ht, step_touched]

theorem scan_rows_clean (bm : DirtyBitmap) (cols rows sw drp dcp inv : Int) (fuel : Nat)
    (c : Cursor) (h : c.i < rows) (ht : touched bm sw inv c = false) :
    scan_rows bm cols rows sw drp dcp inv (fuel + 1) c =
      ((scan_rows bm cols rows sw drp dcp inv fuel (step_clean sw drp c)).1,
        [Event.get_dirty c.addr (to_hwaddr sw)]
          ++ (scan_rows bm cols rows sw drp dcp inv fuel (step_clean sw drp c)).2) := by
  unfold touched at ht
  simp only [scan_rows, h, if_true, ht, step_clean]
  simp

theorem scan_rows_span (bm : DirtyBitmap) (cols rows sw drp dcp inv r0 : Int) :
    ∀ (fuel : Nat) (c : Cursor), r0 ≤ c.i → span_ok r0 rows c →
      span_ok r0 rows (scan_rows bm cols rows sw drp dcp inv fuel c).1 := by
  intro fuel
  induction fuel with
  | zero => intro c _ h; simpa [scan_rows] using h
  | succ n ih =>
    intro c hi h
    by_cases hlt : c.i < rows
    · cases ht : touched bm sw inv c
      · rw [scan_rows_clean _ _ _ _ _ _ _ _ _ hlt ht]
        apply ih
        · show r0 ≤ c.i + 1
          omega
        · unfold span_ok at h ⊢
          simp only [step_clean]
          omega
      · rw [scan_rows_touched _ _ _ _ _ _ _ _ _ hlt ht]
        apply ih
        · show r0 ≤ c.i + 1
          omega
        · unfold span_ok at h ⊢
          simp only [step_touched]
          split <;> omega
    · rw [scan_rows_done _ _ _ _ _ _ _ _ _ hlt]
      exact h

/-! ### The fuel of the row loop -/

/-- The swap variant walks the rows exactly as the generic loop does: when it
completes, its loop variables are those of `scan_rows` run with a zero
destination pitch. -/
theorem scan_rows_swap_cursor (be : Bool) (bm : DirtyBitmap) (m : Int → Byte)
    (swapmode : framebuffer_swapmode) (cols rows sw inv : Int) :
    ∀ (fuel : Nat) (c : Cursor) (lb : pixman_image_t) (r : Cursor × List Event),
      scan_rows_swap be bm m swapmode cols rows sw inv fuel c lb = .ok r →
      r.1 = (scan_rows bm cols rows sw 0 0 inv fuel c).1 := by
  intro fuel
  induction fuel with
  | zero => intro c lb r h; simp [scan_rows_swap] at h; simp [scan_rows, ← h]
  | succ n ih =>
    intro c lb r h
    simp only [scan_rows_swap] at h
    simp only [scan_rows]
    split at h
    · rename_i hlt
      simp only [hlt, if_true]
      split at h
      · rename_i ht
        simp only [ht, if_true]
        split at h
        · exact absurd h (by simp)
        · split at h
          · exact absurd h (by simp)
          · rename_i r1 hr1
            have := ih _ _ _ hr1
            simp only [Except.ok.injEq] at h
            rw [← h]
            simpa using this
      · rename_i ht
        simp only [ht]
        split at h
        · exact absurd h (by simp)
        · rename_i r1 hr1
          have := ih _ _ _ hr1
          simp only [Except.ok.injEq] at h
          rw [← h]
          simpa using this
    · rename_i hlt
      simp only [hlt, if_false]
      simp only [Except.ok.injEq] at h
      rw [← h]

/-! ### The exit paths of `framebuffer_update_display` -/

/-- Region mismatch: wrong size or not RAM. -/
theorem update_display_unresolved (aspace : AddressSpace) (bm : DirtyBitmap) (base : Nat)
    (cols rows sw drp dcp inv r lr : Int)
    (h : (block_section aspace base sw rows).size ≠ block_len sw rows ∨
         memory_region_is_ram (block_section aspace base sw rows).mr = false) :
    framebuffer_update_display aspace bm base cols rows sw drp dcp inv r lr =
      .ok { first_row := -1, last_row := lr, bitmap := bm,
            trace := [Event.find base (block_len sw rows), Event.unref] } := by
  unfold block_section block_len at h
  simp only [framebuffer_update_display]
  rw [if_pos h]
  rfl

theorem resolves_mr_some (aspace : AddressSpace) (base : Nat) (sw rows : Int)
    (h : region_resolves aspace base sw rows) :
    (aspace.memory_region_find base (to_hwaddr (wrap_int (sw * rows)))).mr.isNone = false := by
  have h2 := h.2.1
  unfold block_section block_len memory_region_is_ram at h2
  cases hm : (aspace.memory_region_find base (to_hwaddr (wrap_int (sw * rows)))).mr with
  | none => rw [hm] at h2; exact absurd h2 (by simp)
  | some x => rfl

/-- Mapping failure: `cpu_physical_memory_map` answers null. -/
theorem update_display_map_null (aspace : AddressSpace) (bm : DirtyBitmap) (base : Nat)
    (cols rows sw drp dcp inv r lr : Int)
    (hres : region_resolves aspace base sw rows)
    (hmap : aspace.cpu_physical_memory_map base (block_len sw rows) = none) :
    framebuffer_update_display aspace bm base cols rows sw drp dcp inv r lr =
      .ok { first_row := -1, last_row := lr, bitmap := memory_region_sync_dirty_bitmap bm,
            trace := [Event.find base (block_len sw rows), Event.sync,
                      Event.map base (block_len sw rows), Event.unref] } := by
  have hsome := resolves_mr_some aspace base sw rows hres
  obtain ⟨h1, h2, h3⟩ := hres
  unfold block_section block_len at h1 h2 h3
  unfold block_len at hmap
  simp only [framebuffer_update_display]
  rw [if_neg (by simp [h1, h2]), if_neg (by simp [hsome]), if_neg (by simp [h3])]
  simp only [hmap, block_len]

/-- Short mapping: the mapped length differs from the requested one. -/
theorem update_display_map_short (aspace : AddressSpace) (bm : DirtyBitmap) (base : Nat)
    (cols rows sw drp dcp inv r lr : Int) (len1 : Nat)
    (hres : region_resolves aspace base sw rows)
    (hmap : aspace.cpu_physical_memory_map base (block_len sw rows) = some len1)
    (hne : len1 ≠ block_len sw rows) :
    framebuffer_update_display aspace bm base cols rows sw drp dcp inv r lr =
      .ok { first_row := -1, last_row := lr, bitmap := memory_region_sync_dirty_bitmap bm,
            trace := [Event.find base (block_len sw rows), Event.sync,
                      Event.map base (block_len sw rows), Event.unmap len1, Event.unref] } := by
  have hsome := resolves_mr_some aspace base sw rows hres
  obtain ⟨h1, h2, h3⟩ := hres
  unfold block_section block_len at h1 h2 h3
  unfold block_len at hmap hne
  simp only [framebuffer_update_display]
  rw [if_neg (by simp [h1, h2]), if_neg (by simp [hsome]), if_neg (by simp [h3])]
  simp only [hmap, block_len]
  rw [if_pos hne]

/-- The scan path: region resolved and block mapped in full. -/
theorem update_display_scanned (aspace : AddressSpace) (bm : DirtyBitmap) (base : Nat)
    (cols rows sw drp dcp inv r lr : Int)
    (hres : region_resolves aspace base sw rows) (hmap : block_maps aspace base sw rows) :
    framebuffer_update_display aspace bm base cols rows sw drp dcp inv r lr =
      if (scan_rows (memory_region_sync_dirty_bitmap bm) cols rows sw drp dcp inv
          (rows - r).toNat (start_cursor (block_section aspace base sw rows).offset_within_region
            cols rows sw drp dcp r)).1.first < 0 then
        .ok { first_row := -1, last_row := lr, bitmap := memory_region_sync_dirty_bitmap bm,
              trace := [Event.find base (block_len sw rows), Event.sync,
                        Event.map base (block_len sw rows)]
                ++ (scan_rows (memory_region_sync_dirty_bitmap bm) cols rows sw drp dcp inv
                    (rows - r).toNat
                    (start_cursor (block_section aspace base sw rows).offset_within_region
                      cols rows sw drp dcp r)).2
                ++ [Event.unmap (block_len sw rows), Event.unref] }
      else
        .ok { first_row := (scan_rows (memory_region_sync_dirty_bitmap bm) cols rows sw drp dcp
                inv (rows - r).toNat
                (start_cursor (block_section aspace base sw rows).offset_within_region
                  cols rows sw drp dcp r)).1.first,
              last_row := (scan_rows (memory_region_sync_dirty_bitmap bm) cols rows sw drp dcp
                inv (rows - r).toNat
                (start_cursor (block_section aspace base sw rows).offset_within_region
                  cols rows sw drp dcp r)).1.last,
              bitmap := memory_region_reset_dirty (memory_region_sync_dirty_bitmap bm)
                (block_section aspace base sw rows).offset_within_region (block_len sw rows),
              trace := [Event.find base (block_len sw rows), Event.sync,
                        Event.map base (block_len sw rows)]
                ++ (scan_rows (memory_region_sync_dirty_bitmap bm) cols rows sw drp dcp inv
                    (rows - r).toNat
                    (start_cursor (block_section aspace base sw rows).offset_within_region
                      cols rows sw drp dcp r)).2
                ++ [Event.unmap (block_len sw rows),
                    Event.reset_dirty (block_section aspace base sw rows).offset_within_region
                      (block_len sw rows),
                    Event.unref] } := by
  have hsome := resolves_mr_some aspace base sw rows hres
  obtain ⟨h1, h2, h3⟩ := hres
  unfold block_maps at hmap
  unfold block_section block_len at h1 h2 h3
  unfold block_len at hmap
  simp only [framebuffer_update_display]
  rw [if_neg (by simp [h1, h2]), if_neg (by simp [hsome]), if_neg (by simp [h3])]
  simp only [hmap, block_len, block_section]
  rw [if_neg (by simp)]

/-! ### The exit paths of `framebuffer_update_display_swap_pixman` -/

/-- Mapping failure in the swap variant. -/
theorem swap_pixman_map_null (be : Bool) (aspace : AddressSpace)
    (lbc : Nat → Int → pixman_image_t) (m : Int → Byte) (bm : DirtyBitmap)
    (ds : DisplaySurface) (base : Nat) (mode : framebuffer_swapmode) (format : Nat)
    (inv r lr : Int)
    (hres : region_resolves aspace base ds.stride ds.height)
    (hmap : aspace.cpu_physical_memory_map base (block_len ds.stride ds.height) = none) :
    framebuffer_update_display_swap_pixman be aspace lbc m bm ds base mode format inv r lr =
      .ok { first_row := -1, last_row := lr, bitmap := memory_region_sync_dirty_bitmap bm,
            trace := [Event.find base (block_len ds.stride ds.height), Event.sync,
                      Event.map base (block_len ds.stride ds.height), Event.unref] } := by
  have hsome := resolves_mr_some aspace base ds.stride ds.height hres
  obtain ⟨h1, h2, h3⟩ := hres
  unfold block_section block_len at h1 h2 h3
  unfold block_len at hmap
  simp only [framebuffer_update_display_swap_pixman]
  rw [if_neg (by simp [h1, h2]), if_neg (by simp [hsome]), if_neg (by simp [h3])]
  simp only [hmap, block_len]

/-- Short mapping in the swap variant. -/
theorem swap_pixman_map_short (be : Bool) (aspace : AddressSpace)
    (lbc : Nat → Int → pixman_image_t) (m : Int → Byte) (bm : DirtyBitmap)
    (ds : DisplaySurface) (base : Nat) (mode : framebuffer_swapmode) (format : Nat)
    (inv r lr : Int) (len1 : Nat)
    (hres : region_resolves aspace base ds.stride ds.height)
    (hmap : aspace.cpu_physical_memory_map base (block_len ds.stride ds.height) = some len1)
    (hne : len1 ≠ block_len ds.stride ds.height) :
    framebuffer_update_display_swap_pixman be aspace lbc m bm ds base mode format inv r lr =
      .ok { first_row := -1, last_row := lr, bitmap := memory_region_sync_dirty_bitmap bm,
            trace := [Event.find base (block_len ds.stride ds.height), Event.sync,
                      Event.map base (block_len ds.stride ds.height), Event.unmap len1,
                      Event.unref] } := by
  have hsome := resolves_mr_some aspace base ds.stride ds.height hres
  obtain ⟨h1, h2, h3⟩ := hres
  unfold block_section block_len at h1 h2 h3
  unfold block_len at hmap hne
  simp only [framebuffer_update_display_swap_pixman]
  rw [if_neg (by simp [h1, h2]), if_neg (by simp [hsome]), if_neg (by simp [h3])]
  simp only [hmap, block_len]
  rw [if_pos hne]

/-- The scan path of the swap variant: region resolved and block mapped in full. -/
theorem swap_pixman_scanned (be : Bool) (aspace : AddressSpace)
    (lbc : Nat → Int → pixman_image_t) (m : Int → Byte) (bm : DirtyBitmap)
    (ds : DisplaySurface) (base : Nat) (mode : framebuffer_swapmode) (format : Nat)
    (inv r lr : Int)
    (hres : region_resolves aspace base ds.stride ds.height)
    (hmap : block_maps aspace base ds.stride ds.height) :
    framebuffer_update_display_swap_pixman be aspace lbc m bm ds base mode format inv r lr =
      match scan_rows_swap be (memory_region_sync_dirty_bitmap bm) m mode ds.width ds.height
          ds.stride inv (ds.height - r).toNat
          (start_cursor_swap (block_section aspace base ds.stride ds.height).offset_within_region
            ds.stride r) (lbc format ds.width) with
      | .error e => .error e
      | .ok sc =>
        if sc.1.first < 0 then
          .ok { first_row := -1, last_row := lr, bitmap := memory_region_sync_dirty_bitmap bm,
                trace := [Event.find base (block_len ds.stride ds.height), Event.sync,
                          Event.map base (block_len ds.stride ds.height),
                          Event.linebuf_create ds.width]
                  ++ sc.2 ++ [Event.linebuf_unref, Event.unmap (block_len ds.stride ds.height),
                              Event.unref] }
        else
          .ok { first_row := sc.1.first, last_row := sc.1.last,
                bitmap := memory_region_reset_dirty (memory_region_sync_dirty_bitmap bm)
                  (block_section aspace base ds.stride ds.height).offset_within_region
                  (block_len ds.stride ds.height),
                trace := [Event.find base (block_len ds.stride ds.height), Event.sync,
                          Event.map base (block_len ds.stride ds.height),
                          Event.linebuf_create ds.width]
                  ++ sc.2 ++ [Event.linebuf_unref, Event.unmap (block_len ds.stride ds.height),
                      Event.reset_dirty
                        (block_section aspace base ds.stride ds.height).offset_within_region
                        (block_len ds.stride ds.height),
                      Event.unref] } := by
  have hsome := resolves_mr_some aspace base ds.stride ds.height hres
  obtain ⟨h1, h2, h3⟩ := hres
  unfold block_maps at hmap
  unfold block_section block_len at h1 h2 h3
  unfold block_len at hmap
  simp only [framebuffer_update_display_swap_pixman]
  rw [if_neg (by simp [h1, h2]), if_neg (by simp [hsome]), if_neg (by simp [h3])]
  simp only [hmap, block_len, block_section]
  rw [if_neg (by simp)]

/-! ### C1: the reported span lies in the scanned range -/

/-- C1: for `framebuffer_update_display` and `framebuffer_update_display_swap_pixman`,
whenever the call returns and the returned `*first_row` is not `-1`, the reported
span satisfies `resume_row_input ≤ *first_row ≤ *last_row < rows`. -/
theorem reported_span_within_scan_range (be : Bool) (aspace : AddressSpace)
    (linebuf_create : Nat → Int → pixman_image_t) (m : Int → Byte) (bm : DirtyBitmap)
    (ds : DisplaySurface) (base : Nat) (swapmode : framebuffer_swapmode) (format : Nat)
    (cols rows src_width dest_row_pitch dest_col_pitch invalidate first_row last_row : Int) :
    (∀ o, framebuffer_update_display aspace bm base cols rows src_width dest_row_pitch
        dest_col_pitch invalidate first_row last_row = .ok o → o.first_row ≠ -1 →
      first_row ≤ o.first_row ∧ o.first_row ≤ o.last_row ∧ o.last_row < rows) ∧
    (∀ o, framebuffer_update_display_swap_pixman be aspace linebuf_create m bm ds base
        swapmode format invalidate first_row last_row = .ok o → o.first_row ≠ -1 →
      first_row ≤ o.first_row ∧ o.first_row ≤ o.last_row ∧ o.last_row < ds.height) := by
  constructor
  · intro o h hne
    simp only [framebuffer_update_display] at h
    split at h
    · simp only [Except.ok.injEq] at h; subst h; exact absurd rfl hne
    · split at h
      · exact absurd h (by simp)
      · split at h
        · exact absurd h (by simp)
        · split at h
          · simp only [Except.ok.injEq] at h; subst h; exact absurd rfl hne
          · split at h
            · simp only [Except.ok.injEq] at h; subst h; exact absurd rfl hne
            · split at h
              · simp only [Except.ok.injEq] at h; subst h; exact absurd rfl hne
              · simp only [Except.ok.injEq] at h; subst h
                have hs := scan_rows_span (memory_region_sync_dirty_bitmap bm) cols rows src_width
                  dest_row_pitch dest_col_pitch invalidate first_row (rows - first_row).toNat
                  (start_cursor (aspace.memory_region_find base
                    (to_hwaddr (wrap_int (src_width * rows)))).offset_within_region
                    cols rows src_width dest_row_pitch dest_col_pitch first_row)
                  (le_refl _) (Or.inl rfl)
                rcases hs with hs | hs
                · exact absurd hs hne
                · exact ⟨hs.1, hs.2.1, hs.2.2.1⟩
  · intro o h hne
    simp only [framebuffer_update_display_swap_pixman] at h
    split at h
    · simp only [Except.ok.injEq] at h; subst h; exact absurd rfl hne
    · split at h
      · exact absurd h (by simp)
      · split at h
        · exact absurd h (by simp)
        · split at h
          · simp only [Except.ok.injEq] at h; subst h; exact absurd rfl hne
          · split at h
            · simp only [Except.ok.injEq] at h; subst h; exact absurd rfl hne
            · split at h
              · exact absurd h (by simp)
              · rename_i r hr
                have hc := scan_rows_swap_cursor _ _ _ _ _ _ _ _ _ _ _ _ hr
                split at h
                · simp only [Except.ok.injEq] at h; subst h; exact absurd rfl hne
                · simp only [Except.ok.injEq] at h; subst h
                  have hs := scan_rows_span (memory_region_sync_dirty_bitmap bm) ds.width
                    ds.height ds.stride 0 0 invalidate first_row (ds.height - first_row).toNat
                    (start_cursor_swap (aspace.memory_region_find base
                      (to_hwaddr (wrap_int (ds.stride * ds.height)))).offset_within_region
                      ds.stride first_row)
                    (le_refl _) (Or.inl rfl)
                  rw [← hc] at hs
                  rcases hs with hs | hs
                  · exact absurd hs hne
                  · exact ⟨hs.1, hs.2.1, hs.2.2.1⟩

/-- Instance of C1: `rows = 4`, `src_width = 16`, only row 2 dirty (byte `16 + 40` of
the region), resume row `0`: both entry points report the span `[2, 2]`. -/
theorem reported_span_within_scan_range_witness :
    ((0 : Int) ≤ 2 ∧ (2 : Int) ≤ 2 ∧ (2 : Int) < 4) ∧
    ((0 : Int) ≤ 2 ∧ (2 : Int) ≤ 2 ∧ (2 : Int) < 4) :=
  ⟨(reported_span_within_scan_range false demo_space demo_linebuf demo_block
      { dirty := [56], pending := [] } { width := 4, height := 4, stride := 16 } 0
      framebuffer_swapmode.FB_SWAP_32_BYTES 0 4 4 16 16 4 0 0 7).1
      { first_row := 2, last_row := 2, bitmap := { dirty := [], pending := [] },
        trace := [Event.find 0 64, Event.sync, Event.map 0 64, Event.get_dirty 16 16,
          Event.get_dirty 32 16, Event.get_dirty 48 16, Event.fn 2 32 32 4 4,
          Event.get_dirty 64 16, Event.unmap 64, Event.reset_dirty 16 64, Event.unref] }
      rfl (by decide),
   (reported_span_within_scan_range false demo_space demo_linebuf demo_block
      { dirty := [56], pending := [] } { width := 4, height := 4, stride := 16 } 0
      framebuffer_swapmode.FB_SWAP_32_BYTES 0 4 4 16 16 4 0 0 7).2
      { first_row := 2, last_row := 2, bitmap := { dirty := [], pending := [] },
        trace := [Event.find 0 64, Event.sync, Event.map 0 64, Event.linebuf_create 4,
          Event.get_dirty 16 16, Event.get_dirty 32 16, Event.get_dirty 48 16,
          Event.linebuf_copy 4 2 [36, 35, 34, 33, 40, 39, 38, 37, 44, 43, 42, 41, 48, 47, 46, 45],
          Event.get_dirty 64 16, Event.linebuf_unref, Event.unmap 64, Event.reset_dirty 16 64,
          Event.unref] }
      rfl (by decide)⟩

/-! ### C2: `invalidate` forces a full redraw -/

theorem transform_rows_append (a b : List Event) : transform_rows (a ++ b) = transform_rows a ++ transform_rows b := by
  simp [transform_rows, List.filterMap_append]

theorem range_map_shift (i : Int) (n : Nat) :
    (List.range (n + 1)).map (fun (k : Nat) => i + (k : Int))
      = i :: (List.range n).map (fun (k : Nat) => i + 1 + (k : Int)) := by
  rw [List.range_succ_eq_map, List.map_cons, List.map_map]
  simp only [Nat.cast_zero, add_zero, List.cons.injEq, true_and]
  apply List.map_congr_left
  intro k _
  simp only [Function.comp, Nat.cast_succ]
  ring

/-- With `invalidate` set every remaining row is touched: the loop, started at a
row `0 ≤ c.i` with `n` rows to go, records `c.i` as first row unless a first row
is already recorded, ends with `last = rows - 1`, and calls the transform on
the rows `c.i, ..., rows - 1` in order. -/
theorem scan_rows_invalidate (bm : DirtyBitmap) (cols rows sw drp dcp inv : Int)
    (hinv : inv ≠ 0) :
    ∀ (n : Nat) (c : Cursor), 0 ≤ c.i → c.i + (n : Int) = rows →
      (scan_rows bm cols rows sw drp dcp inv n c).1.first
          = (if c.first = -1 ∧ 0 < n then c.i else c.first) ∧
      (scan_rows bm cols rows sw drp dcp inv n c).1.last
          = (if 0 < n then rows - 1 else c.last) ∧
      transform_rows (scan_rows bm cols rows sw drp dcp inv n c).2
          = (List.range n).map (fun (k : Nat) => c.i + (k : Int)) := by
  intro n
  induction n with
  | zero => intro c _ _; simp [scan_rows, transform_rows]
  | succ n ih =>
    intro c h0 hn
    have hlt : c.i < rows := by push_cast at hn; omega
    have ht : touched bm sw inv c = true := by simp [touched, hinv]
    rw [scan_rows_touched _ _ _ _ _ _ _ _ _ hlt ht]
    have hi : (step_touched sw drp c).i = c.i + 1 := rfl
    obtain ⟨h1, h2, h3⟩ := ih (step_touched sw drp c) (by rw [hi]; omega)
      (by rw [hi]; push_cast at hn; omega)
    refine ⟨?_, ?_, ?_⟩
    · show (scan_rows bm cols rows sw drp dcp inv n (step_touched sw drp c)).1.first = _
      rw [h1]
      simp only [step_touched]
      by_cases hf : c.first = -1
      · simp only [hf, if_true, true_and, Nat.succ_pos, if_true]
        rw [if_neg]
        intro hc
        omega
      · simp only [hf, if_false, false_and]
    · show (scan_rows bm cols rows sw drp dcp inv n (step_touched sw drp c)).1.last = _
      rw [h2]
      simp only [step_touched, Nat.succ_pos, if_true]
      split
      · rfl
      · push_cast at hn; omega
    · show transform_rows ([Event.get_dirty c.addr (to_hwaddr sw), Event.fn c.i c.dest c.src cols dcp]
          ++ (scan_rows bm cols rows sw drp dcp inv n (step_touched sw drp c)).2) = _
      rw [transform_rows_append, h3, hi, range_map_shift]
      rfl

/-- C2 (as stated) fails outside `0 ≤ resume_row_input < rows`.  With `rows = 4`,
`src_width = 16`, `invalidate = 1`, a region that resolves and maps: for resume
row `4` nothing is scanned and the call reports the empty span (`*first_row = -1`,
not `4`, and `*last_row` is left at the caller's `7`, not `3`); for resume row `-1`
the transform runs on rows `-1, 0, 1, 2, 3` and the call reports `[0, 3]`, not
`[-1, 3]`. -/
theorem invalidate_full_span_counterexample :
    (region_resolves demo_space 0 16 4 ∧ block_maps demo_space 0 16 4) ∧
    (∃ o, framebuffer_update_display demo_space { dirty := [], pending := [] } 0 4 4 16 16 4 1
        4 7 = .ok o ∧ o.first_row = -1 ∧ o.last_row = 7 ∧ transform_rows o.trace = []) ∧
    (∃ o, framebuffer_update_display demo_space { dirty := [], pending := [] } 0 4 4 16 16 4 1
        (-1) 7 = .ok o ∧ o.first_row = 0 ∧ o.last_row = 3 ∧
        transform_rows o.trace = [-1, 0, 1, 2, 3]) :=
  ⟨⟨⟨rfl, rfl, rfl⟩, rfl⟩, ⟨_, rfl, rfl, rfl, rfl⟩, ⟨_, rfl, rfl, rfl, rfl⟩⟩

/-- C2 (amended): when `invalidate` is nonzero, the region resolves and maps, and
`0 ≤ resume_row_input < rows`, the call returns with `*first_row = resume_row_input`
and `*last_row = rows - 1` whatever the dirty bitmap holds, and the transform is
called on exactly the rows `resume_row_input, ..., rows - 1`, in order. -/
theorem invalidate_reports_full_span (aspace : AddressSpace) (bm : DirtyBitmap) (base : Nat)
    (cols rows src_width dest_row_pitch dest_col_pitch invalidate first_row last_row : Int)
    (hres : region_resolves aspace base src_width rows)
    (hmap : block_maps aspace base src_width rows)
    (hinv : invalidate ≠ 0) (h0 : 0 ≤ first_row) (hlt : first_row < rows) :
    ∃ o, framebuffer_update_display aspace bm base cols rows src_width dest_row_pitch
        dest_col_pitch invalidate first_row last_row = .ok o ∧
      o.first_row = first_row ∧ o.last_row = rows - 1 ∧
      transform_rows o.trace = rows_from first_row rows := by
  rw [update_display_scanned _ _ _ _ _ _ _ _ _ _ _ hres hmap]
  have hn : first_row + ((rows - first_row).toNat : Int) = rows := by
    rw [Int.toNat_of_nonneg (by omega)]; omega
  have hpos : 0 < (rows - first_row).toNat := by omega
  obtain ⟨h1, h2, h3⟩ := scan_rows_invalidate (memory_region_sync_dirty_bitmap bm) cols rows
    src_width dest_row_pitch dest_col_pitch invalidate hinv (rows - first_row).toNat
    (start_cursor (block_section aspace base src_width rows).offset_within_region
      cols rows src_width dest_row_pitch dest_col_pitch first_row) h0 hn
  have hf : (start_cursor (block_section aspace base src_width rows).offset_within_region
      cols rows src_width dest_row_pitch dest_col_pitch first_row).first = -1 := rfl
  have hi : (start_cursor (block_section aspace base src_width rows).offset_within_region
      cols rows src_width dest_row_pitch dest_col_pitch first_row).i = first_row := rfl
  rw [hf, hi] at h1
  rw [hi] at h3
  simp only [hpos, and_self, if_true] at h1 h2
  rw [if_neg (by rw [h1]; omega)]
  refine ⟨_, rfl, h1, h2, ?_⟩
  simp only [transform_rows_append, h3, rows_from]
  simp [transform_rows]

/-- Instance of the amended C2: `rows = 4`, resume row `1`, `invalidate = 1`. -/
theorem invalidate_reports_full_span_witness :
    ∃ o, framebuffer_update_display demo_space { dirty := [], pending := [] } 0 4 4 16 16 4 1
        1 7 = .ok o ∧ o.first_row = 1 ∧ o.last_row = 4 - 1 ∧
      transform_rows o.trace = rows_from 1 4 :=
  invalidate_reports_full_span demo_space { dirty := [], pending := [] } 0 4 4 16 16 4 1 1 7
    ⟨rfl, rfl, rfl⟩ rfl (by decide) (by decide) (by decide)

/-! ### C3: a region that fails to resolve -/

/-- C3: when the region fails to resolve (the section size differs from the
requested length, or the region is not RAM), `framebuffer_update_display` returns
with `*first_row = -1`, calls the transform zero times, leaves the dirty bitmap as
it was (no sync, no clear) and neither maps nor unmaps: its only collaborator calls
are the lookup and the release of the region. -/
theorem unresolved_region_no_effect (aspace : AddressSpace) (bm : DirtyBitmap) (base : Nat)
    (cols rows src_width dest_row_pitch dest_col_pitch invalidate first_row last_row : Int)
    (h : (block_section aspace base src_width rows).size ≠ block_len src_width rows ∨
         memory_region_is_ram (block_section aspace base src_width rows).mr = false) :
    ∃ o, framebuffer_update_display aspace bm base cols rows src_width dest_row_pitch
        dest_col_pitch invalidate first_row last_row = .ok o ∧
      o.first_row = -1 ∧ o.bitmap = bm ∧
      o.trace = [Event.find base (block_len src_width rows), Event.unref] ∧
      o.trace.all (fun e => !is_transform e && !is_bitmap_mutation e && !is_mapping e)
        = true := by
  rw [update_display_unresolved _ _ _ _ _ _ _ _ _ _ _ h]
  exact ⟨_, rfl, rfl, rfl, rfl, rfl⟩

/-- Instance of C3: the region lookup answers `length + 1` bytes. -/
theorem unresolved_region_no_effect_witness :
    ∃ o, framebuffer_update_display demo_space_mismatch { dirty := [56], pending := [8] } 0
        4 4 16 16 4 1 0 7 = .ok o ∧
      o.first_row = -1 ∧ o.bitmap = { dirty := [56], pending := [8] } ∧
      o.trace = [Event.find 0 (block_len 16 4), Event.unref] ∧
      o.trace.all (fun e => !is_transform e && !is_bitmap_mutation e && !is_mapping e)
        = true :=
  unresolved_region_no_effect demo_space_mismatch { dirty := [56], pending := [8] } 0
    4 4 16 16 4 1 0 7 (Or.inl (by decide))

/-! ### C4: a mapping that fails or is short -/

/-- C4: when the region resolves but `cpu_physical_memory_map` answers null or a
length different from `src_width * rows`, both entry points fail as a whole: they
return with `*first_row = -1`, leave `*last_row` as the caller had it, call the
transform zero times and neither query nor clear the dirty bitmap (which is as the
sync left it). -/
theorem failed_mapping_total_failure (be : Bool) (aspace : AddressSpace)
    (linebuf_create : Nat → Int → pixman_image_t) (m : Int → Byte) (bm : DirtyBitmap)
    (ds : DisplaySurface) (base : Nat) (swapmode : framebuffer_swapmode) (format : Nat)
    (cols rows src_width dest_row_pitch dest_col_pitch invalidate first_row last_row : Int) :
    (region_resolves aspace base src_width rows →
      (∀ len1, aspace.cpu_physical_memory_map base (block_len src_width rows) = some len1 →
        len1 ≠ block_len src_width rows) →
      ∃ o, framebuffer_update_display aspace bm base cols rows src_width dest_row_pitch
          dest_col_pitch invalidate first_row last_row = .ok o ∧
        o.first_row = -1 ∧ o.last_row = last_row ∧
        o.bitmap = memory_region_sync_dirty_bitmap bm ∧
        o.trace.all (fun e => !is_transform e && !is_query e && !is_clear e) = true) ∧
    (region_resolves aspace base ds.stride ds.height →
      (∀ len1, aspace.cpu_physical_memory_map base (block_len ds.stride ds.height) = some len1 →
        len1 ≠ block_len ds.stride ds.height) →
      ∃ o, framebuffer_update_display_swap_pixman be aspace linebuf_create m bm ds base
          swapmode format invalidate first_row last_row = .ok o ∧
        o.first_row = -1 ∧ o.last_row = last_row ∧
        o.bitmap = memory_region_sync_dirty_bitmap bm ∧
        o.trace.all (fun e => !is_transform e && !is_query e && !is_clear e) = true) := by
  constructor
  · intro hres hmap
    cases hm : aspace.cpu_physical_memory_map base (block_len src_width rows) with
    | none =>
      rw [update_display_map_null _ _ _ _ _ _ _ _ _ _ _ hres hm]
      exact ⟨_, rfl, rfl, rfl, rfl, rfl⟩
    | some len1 =>
      rw [update_display_map_short _ _ _ _ _ _ _ _ _ _ _ len1 hres hm (hmap len1 hm)]
      exact ⟨_, rfl, rfl, rfl, rfl, rfl⟩
  · intro hres hmap
    cases hm : aspace.cpu_physical_memory_map base (block_len ds.stride ds.height) with
    | none =>
      rw [swap_pixman_map_null _ _ _ _ _ _ _ _ _ _ _ _ hres hm]
      exact ⟨_, rfl, rfl, rfl, rfl, rfl⟩
    | some len1 =>
      rw [swap_pixman_map_short _ _ _ _ _ _ _ _ _ _ _ _ len1 hres hm (hmap len1 hm)]
      exact ⟨_, rfl, rfl, rfl, rfl, rfl⟩

/-- Instance of C4: a mapping one byte short, `invalidate = 1`, row 2 dirty. -/
theorem failed_mapping_total_failure_witness :
    (∃ o, framebuffer_update_display demo_space_short { dirty := [56], pending := [] } 0
        4 4 16 16 4 1 0 7 = .ok o ∧
      o.first_row = -1 ∧ o.last_row = 7 ∧
      o.bitmap = memory_region_sync_dirty_bitmap { dirty := [56], pending := [] } ∧
      o.trace.all (fun e => !is_transform e && !is_query e && !is_clear e) = true) ∧
    (∃ o, framebuffer_update_display_swap_pixman false demo_space_short demo_linebuf demo_block
        { dirty := [56], pending := [] } { width := 4, height := 4, stride := 16 } 0
        framebuffer_swapmode.FB_SWAP_32_BYTES 0 1 0 7 = .ok o ∧
      o.first_row = -1 ∧ o.last_row = 7 ∧
      o.bitmap = memory_region_sync_dirty_bitmap { dirty := [56], pending := [] } ∧
      o.trace.all (fun e => !is_transform e && !is_query e && !is_clear e) = true) :=
  ⟨(failed_mapping_total_failure false demo_space_short demo_linebuf demo_block
      { dirty := [56], pending := [] } { width := 4, height := 4, stride := 16 } 0
      framebuffer_swapmode.FB_SWAP_32_BYTES 0 4 4 16 16 4 1 0 7).1 ⟨rfl, rfl, rfl⟩
      (fun len1 h => by
        have : len1 = 63 := (Option.some.inj h).symm
        rw [this]; decide),
   (failed_mapping_total_failure false demo_space_short demo_linebuf demo_block
      { dirty := [56], pending := [] } { width := 4, height := 4, stride := 16 } 0
      framebuffer_swapmode.FB_SWAP_32_BYTES 0 4 4 16 16 4 1 0 7).2 ⟨rfl, rfl, rfl⟩
      (fun len1 h => by
        have : len1 = 63 := (Option.some.inj h).symm
        rw [this]; decide)⟩

/-! ### Address arithmetic -/

theorem addr_add_to_hwaddr (x y : Int) :
    addr_add (to_hwaddr x) (to_hwaddr y) = to_hwaddr (x + y) := by
  unfold addr_add to_hwaddr
  omega

theorem addr_add_nat_to_hwaddr (off : Nat) (y : Int) :
    addr_add off (to_hwaddr y) = to_hwaddr ((off : Int) + y) := by
  unfold addr_add to_hwaddr
  omega

theorem wrap_int_of_fits (x : Int) (h : fits_int x) : wrap_int x = x := by
  unfold wrap_int
  unfold fits_int at h
  omega

theorem to_hwaddr_of_nonneg (x : Int) (h0 : 0 ≤ x) (h1 : x < 18446744073709551616) :
    (to_hwaddr x : Int) = x := by
  unfold to_hwaddr
  omega

/-- A recorded non-negative first row is never replaced. -/
theorem scan_rows_first_kept (bm : DirtyBitmap) (cols rows sw drp dcp inv : Int) :
    ∀ (n : Nat) (c : Cursor), 0 ≤ c.first →
      (scan_rows bm cols rows sw drp dcp inv n c).1.first = c.first := by
  intro n
  induction n with
  | zero => intro c _; rfl
  | succ n ih =>
    intro c h0
    by_cases hlt : c.i < rows
    · cases ht : touched bm sw inv c
      · rw [scan_rows_clean _ _ _ _ _ _ _ _ _ hlt ht]
        exact ih (step_clean sw drp c) h0
      · rw [scan_rows_touched _ _ _ _ _ _ _ _ _ hlt ht]
        have hf : (step_touched sw drp c).first = c.first := by
          simp only [step_touched]
          rw [if_neg (by omega)]
        have := ih (step_touched sw drp c) (by rw [hf]; exact h0)
        show (scan_rows bm cols rows sw drp dcp inv n (step_touched sw drp c)).1.first = c.first
        rw [this, hf]
    · rw [scan_rows_done _ _ _ _ _ _ _ _ _ hlt]

/-- From a non-negative row with nothing recorded, the loop ends with a negative
`first` only if the transform was never called. -/
theorem scan_rows_first_neg (bm : DirtyBitmap) (cols rows sw drp dcp inv : Int) :
    ∀ (n : Nat) (c : Cursor), 0 ≤ c.i → c.first = -1 →
      (scan_rows bm cols rows sw drp dcp inv n c).1.first < 0 →
      transform_rows (scan_rows bm cols rows sw drp dcp inv n c).2 = [] := by
  intro n
  induction n with
  | zero => intro c _ _ _; rfl
  | succ n ih =>
    intro c h0 hf hneg
    by_cases hlt : c.i < rows
    · cases ht : touched bm sw inv c
      · rw [scan_rows_clean _ _ _ _ _ _ _ _ _ hlt ht] at hneg ⊢
        have := ih (step_clean sw drp c)
          (by have : (step_clean sw drp c).i = c.i + 1 := rfl
              omega) hf hneg
        show transform_rows ([Event.get_dirty c.addr (to_hwaddr sw)] ++ _) = []
        rw [transform_rows_append, this]
        rfl
      · rw [scan_rows_touched _ _ _ _ _ _ _ _ _ hlt ht] at hneg
        have hf1 : (step_touched sw drp c).first = c.i := by
          simp only [step_touched]
          rw [if_pos hf]
        have := scan_rows_first_kept bm cols rows sw drp dcp inv n (step_touched sw drp c)
          (by rw [hf1]; exact h0)
        have hneg1 : (scan_rows bm cols rows sw drp dcp inv n (step_touched sw drp c)).1.first < 0 :=
          hneg
        rw [this, hf1] at hneg1
        omega
    · rw [scan_rows_done _ _ _ _ _ _ _ _ _ hlt]
      rfl

/-- When no remaining row is to be drawn the loop records nothing and never
calls the transform (only the address of the cursor matters here). -/
theorem scan_rows_clean_rows (bm : DirtyBitmap) (off : Nat) (cols rows sw drp dcp inv : Int) :
    ∀ (n : Nat) (c : Cursor), c.addr = spec_row_addr off sw c.i →
      (∀ i, c.i ≤ i → i < rows → spec_row_touched bm off sw inv i = false) →
      (scan_rows bm cols rows sw drp dcp inv n c).1.first = c.first ∧
      (scan_rows bm cols rows sw drp dcp inv n c).1.last = c.last ∧
      transform_rows (scan_rows bm cols rows sw drp dcp inv n c).2 = [] := by
  intro n
  induction n with
  | zero => intro c _ _; simp [scan_rows, transform_rows]
  | succ n ih =>
    intro c ha hclean
    by_cases hlt : c.i < rows
    · have ht : touched bm sw inv c = false := by
        unfold touched
        rw [ha]
        exact hclean c.i (le_refl _) hlt
      rw [scan_rows_clean _ _ _ _ _ _ _ _ _ hlt ht]
      have ha1 : (step_clean sw drp c).addr = spec_row_addr off sw (step_clean sw drp c).i := by
        simp only [step_clean, ha, spec_row_addr, addr_add_to_hwaddr]
        congr 1; ring
      obtain ⟨h1, h2, h3⟩ := ih (step_clean sw drp c) ha1
        (fun i hi hr => hclean i (by have : (step_clean sw drp c).i = c.i + 1 := rfl
                                     omega) hr)
      refine ⟨h1, h2, ?_⟩
      show transform_rows ([Event.get_dirty c.addr (to_hwaddr sw)] ++ _) = []
      rw [transform_rows_append, h3]
      rfl
    · rw [scan_rows_done _ _ _ _ _ _ _ _ _ hlt]
      exact ⟨rfl, rfl, rfl⟩

/-! ### The dirty bitmap -/

theorem sync_sync (bm : DirtyBitmap) :
    memory_region_sync_dirty_bitmap (memory_region_sync_dirty_bitmap bm)
      = memory_region_sync_dirty_bitmap bm := by
  simp [memory_region_sync_dirty_bitmap]

theorem sync_reset_sync (bm : DirtyBitmap) (a l : Nat) :
    memory_region_sync_dirty_bitmap
        (memory_region_reset_dirty (memory_region_sync_dirty_bitmap bm) a l)
      = memory_region_reset_dirty (memory_region_sync_dirty_bitmap bm) a l := by
  simp [memory_region_sync_dirty_bitmap, memory_region_reset_dirty]

/-- After a clear of `[a, a + l)` a query inside that range, or of an empty
span, answers clean. -/
theorem get_dirty_reset_inside (bm : DirtyBitmap) (a l addr size : Nat)
    (h : size = 0 ∨ (a ≤ addr ∧ addr + size ≤ a + l)) :
    memory_region_get_dirty (memory_region_reset_dirty bm a l) addr size = false := by
  unfold memory_region_get_dirty memory_region_reset_dirty
  rw [List.any_eq_false]
  intro b hb
  simp only [List.mem_filter, in_range, Bool.not_eq_true', decide_eq_false_iff_not] at hb
  simp only [in_range, decide_eq_true_eq]
  omega

/-- Membership after the clear: the dirty bytes outside `[a, a + l)` remain. -/
theorem mem_reset_dirty (bm : DirtyBitmap) (a l b : Nat) :
    b ∈ (memory_region_reset_dirty bm a l).dirty ↔ b ∈ bm.dirty ∧ ¬ (a ≤ b ∧ b < a + l) := by
  simp only [memory_region_reset_dirty, in_range, List.mem_filter, Bool.not_eq_true',
    decide_eq_false_iff_not]

theorem block_len_of_fits (sw rows : Int) (h0 : 0 ≤ sw * rows) (h1 : sw * rows < 2147483648) :
    (block_len sw rows : Int) = sw * rows := by
  unfold block_len
  rw [wrap_int_of_fits _ ⟨by omega, h1⟩]
  exact to_hwaddr_of_nonneg _ h0 (by omega)

/-- Every row of the block has its byte span inside the block: for
`0 ≤ i < rows`, a non-negative line length and a block length that fits an `int`
and ends below `2^64`, the span of row `i` is empty or lies in
`[off, off + src_width * rows)`. -/
theorem row_span_in_block (off : Nat) (sw rows i : Int) (hi0 : 0 ≤ i) (hi : i < rows)
    (hsw : 0 ≤ sw) (hlen : sw * rows < 2147483648)
    (hoff : (off : Int) + sw * rows ≤ 18446744073709551616) :
    to_hwaddr sw = 0 ∨ (off ≤ spec_row_addr off sw i ∧
      spec_row_addr off sw i + to_hwaddr sw ≤ off + block_len sw rows) := by
  have hx0 : 0 ≤ i * sw := mul_nonneg hi0 hsw
  have hx1 : i * sw + sw ≤ sw * rows := by nlinarith
  have hb := block_len_of_fits sw rows (by omega) hlen
  by_cases hz : sw = 0
  · left; rw [hz]; rfl
  · right
    have hs := to_hwaddr_of_nonneg sw hsw (by omega)
    have ha := to_hwaddr_of_nonneg ((off : Int) + i * sw) (by omega) (by omega)
    unfold spec_row_addr
    omega

/-! ### C5: a second call finds nothing to do -/

/-- C5 (as stated) fails for a negative resume row.  With `rows = 4`,
`src_width = 16`, the block at offset `16` of its region, `invalidate = 0` and
resume row `-1`, byte `5` (in the span of "row -1", before the block) and byte `56`
(row 2) dirty: the first call reports `[2, 2]` and clears the block; the second
call with the same arguments still finds byte `5` dirty and calls the transform on
row `-1`. -/
theorem second_call_counterexample :
    ∃ o1 o2,
      framebuffer_update_display demo_space { dirty := [5, 56], pending := [] } 0 4 4 16 16 4 0
        (-1) 7 = .ok o1 ∧ o1.first_row = 2 ∧ o1.last_row = 2 ∧
      framebuffer_update_display demo_space o1.bitmap 0 4 4 16 16 4 0 (-1) 7 = .ok o2 ∧
      transform_rows o2.trace = [-1] :=
  ⟨_, _, rfl, rfl, rfl, rfl, rfl⟩

/-- C5 (amended): for every dirty-bitmap state, a call of
`framebuffer_update_display` with `invalidate = 0` and resume row `≥ 0` whose
region resolves and maps (line length non-negative, block length
`src_width * rows` representable as `int`, block below `2^64` in its region)
returns, and a second call with the same arguments on the bitmap it left
(no memory dirtied in between) returns with `*first_row = -1` and calls the
transform zero times. -/
theorem second_call_reports_empty (aspace : AddressSpace) (bm : DirtyBitmap) (base : Nat)
    (cols rows src_width dest_row_pitch dest_col_pitch first_row last_row last_row2 : Int)
    (hres : region_resolves aspace base src_width rows)
    (hmap : block_maps aspace base src_width rows)
    (h0 : 0 ≤ first_row) (hsw : 0 ≤ src_width) (hlen : src_width * rows < 2147483648)
    (hoff : ((block_section aspace base src_width rows).offset_within_region : Int)
      + src_width * rows ≤ 18446744073709551616) :
    ∃ o1, framebuffer_update_display aspace bm base cols rows src_width dest_row_pitch
        dest_col_pitch 0 first_row last_row = .ok o1 ∧
      ∃ o2, framebuffer_update_display aspace o1.bitmap base cols rows src_width dest_row_pitch
          dest_col_pitch 0 first_row last_row2 = .ok o2 ∧
        o2.first_row = -1 ∧ transform_rows o2.trace = [] := by
  rw [update_display_scanned _ _ _ _ _ _ _ _ _ _ _ hres hmap]
  split
  · rename_i hneg
    refine ⟨_, rfl, ?_⟩
    rw [update_display_scanned _ _ _ _ _ _ _ _ _ _ _ hres hmap]
    simp only [sync_sync]
    rw [if_pos hneg]
    refine ⟨_, rfl, rfl, ?_⟩
    have := scan_rows_first_neg (memory_region_sync_dirty_bitmap bm) cols rows src_width
      dest_row_pitch dest_col_pitch 0 (rows - first_row).toNat _ h0 rfl hneg
    simp only [transform_rows_append, this]
    rfl
  · refine ⟨_, rfl, ?_⟩
    rw [update_display_scanned _ _ _ _ _ _ _ _ _ _ _ hres hmap]
    simp only [sync_reset_sync]
    by_cases hr : first_row < rows
    · have hfit : fits_int (first_row * src_width) := by
        have h1 : 0 ≤ first_row * src_width := mul_nonneg h0 hsw
        have h2 : first_row * src_width ≤ src_width * rows := by nlinarith
        exact ⟨by omega, by omega⟩
      have hal : (start_cursor (block_section aspace base src_width rows).offset_within_region
          cols rows src_width dest_row_pitch dest_col_pitch first_row).addr
          = spec_row_addr (block_section aspace base src_width rows).offset_within_region
              src_width first_row := by
        simp only [start_cursor, wrap_int_of_fits _ hfit, addr_add_nat_to_hwaddr, spec_row_addr]
      obtain ⟨h1, _, h3⟩ := scan_rows_clean_rows
        (memory_region_reset_dirty (memory_region_sync_dirty_bitmap bm)
          (block_section aspace base src_width rows).offset_within_region
          (block_len src_width rows))
        (block_section aspace base src_width rows).offset_within_region
        cols rows src_width dest_row_pitch dest_col_pitch 0 (rows - first_row).toNat _ hal
        (fun i hi hlt => by
          unfold spec_row_touched
          have hi0 : 0 ≤ i := le_trans h0 hi
          rw [get_dirty_reset_inside _ _ _ _ _
            (row_span_in_block _ src_width rows i hi0 hlt hsw hlen hoff)]
          rfl)
      rw [if_pos (by rw [h1]; show (-1 : Int) < 0; decide)]
      refine ⟨_, rfl, rfl, ?_⟩
      simp only [transform_rows_append, h3]
      rfl
    · rw [scan_rows_done _ _ _ _ _ _ _ _ _ hr]
      rw [if_pos (by show (-1 : Int) < 0; decide)]
      exact ⟨_, rfl, rfl, rfl⟩

/-- Instance of the amended C5, the scenario of the specification: `rows = 4`,
`src_width = 16`, only row 2 dirty, resume row `0`; the first call reports
`first_row = last_row = 2`, the second call is empty. -/
theorem second_call_reports_empty_witness :
    (∃ o, framebuffer_update_display demo_space { dirty := [56], pending := [] } 0 4 4 16 16 4 0
        0 7 = .ok o ∧ o.first_row = 2 ∧ o.last_row = 2) ∧
    ∃ o1, framebuffer_update_display demo_space { dirty := [56], pending := [] } 0 4 4 16 16 4 0
        0 7 = .ok o1 ∧
      ∃ o2, framebuffer_update_display demo_space o1.bitmap 0 4 4 16 16 4 0 0 2 = .ok o2 ∧
        o2.first_row = -1 ∧ transform_rows o2.trace = [] :=
  ⟨⟨_, rfl, rfl, rfl⟩,
   second_call_reports_empty demo_space { dirty := [56], pending := [] } 0 4 4 16 16 4 0 7 2
    ⟨rfl, rfl, rfl⟩ rfl (by decide) (by decide) (by decide) (by decide)⟩

/-! ### The swap variant against the generic loop -/

/-- When the row loop of the swap variant completes, it has drawn the same rows
as the generic loop. -/
theorem scan_rows_swap_rows (be : Bool) (bm : DirtyBitmap) (m : Int → Byte)
    (swapmode : framebuffer_swapmode) (cols rows sw inv : Int) :
    ∀ (fuel : Nat) (c : Cursor) (lb : pixman_image_t) (r : Cursor × List Event),
      scan_rows_swap be bm m swapmode cols rows sw inv fuel c lb = .ok r →
      transform_rows r.2 = transform_rows (scan_rows bm cols rows sw 0 0 inv fuel c).2 := by
  intro fuel
  induction fuel with
  | zero => intro c lb r h; simp [scan_rows_swap] at h; simp [scan_rows, ← h]
  | succ n ih =>
    intro c lb r h
    simp only [scan_rows_swap] at h
    simp only [scan_rows]
    split at h
    · rename_i hlt
      simp only [hlt, if_true]
      split at h
      · rename_i ht
        simp only [ht, if_true]
        split at h
        · exact absurd h (by simp)
        · split at h
          · exact absurd h (by simp)
          · rename_i r1 hr1
            have := ih _ _ _ hr1
            simp only [Except.ok.injEq] at h
            rw [← h]
            simp only [transform_rows_append, this]
            simp [transform_rows]
      · rename_i ht
        simp only [ht]
        split at h
        · exact absurd h (by simp)
        · rename_i r1 hr1
          have := ih _ _ _ hr1
          simp only [Except.ok.injEq] at h
          rw [← h]
          simp only [transform_rows_append, this]
          simp [transform_rows]
    · rename_i hlt
      simp only [hlt, if_false]
      simp only [Except.ok.injEq] at h
      rw [← h]

/-- The row loop only queries the bitmap and calls the transform. -/
theorem scan_rows_events (bm : DirtyBitmap) (cols rows sw drp dcp inv : Int) :
    ∀ (n : Nat) (c : Cursor),
      (scan_rows bm cols rows sw drp dcp inv n c).2.all
        (fun e => is_query e || is_transform e) = true := by
  intro n
  induction n with
  | zero => intro c; rfl
  | succ n ih =>
    intro c
    by_cases hlt : c.i < rows
    · cases ht : touched bm sw inv c
      · rw [scan_rows_clean _ _ _ _ _ _ _ _ _ hlt ht]
        simp only [List.all_append, ih, Bool.and_true]
        rfl
      · rw [scan_rows_touched _ _ _ _ _ _ _ _ _ hlt ht]
        simp only [List.all_append, ih, Bool.and_true]
        rfl
    · rw [scan_rows_done _ _ _ _ _ _ _ _ _ hlt]
      rfl

theorem block_len_toNat (sw rows : Int) (h0 : 0 ≤ sw * rows) (h1 : sw * rows < 2147483648) :
    block_len sw rows = (sw * rows).toNat := by
  have := block_len_of_fits sw rows h0 h1
  omega

/-- C6 (as stated) fails: the clear starts at the block, not at the resume row,
and for a negative resume row a touched row need not trigger it.  With `rows = 4`,
`src_width = 16`, the block at offset `16` of its region: (a) resume row `2` with
bytes `16` (row 0) and `56` (row 2) dirty reports `[2, 2]` and leaves byte `16`
clean although row 0 lies before the resume row; (b) resume row `-1` with only byte
`5` (in the span of row `-1`) dirty calls the transform on row `-1` and clears
nothing. -/
theorem clear_range_counterexample :
    (∃ o, framebuffer_update_display demo_space { dirty := [16, 56], pending := [] } 0 4 4 16
        16 4 0 2 7 = .ok o ∧ o.first_row = 2 ∧ o.last_row = 2 ∧
      16 ∈ (memory_region_sync_dirty_bitmap { dirty := [16, 56], pending := [] }).dirty ∧
      (16 : Int) < (16 : Nat) + 2 * 16 ∧ 16 ∉ o.bitmap.dirty) ∧
    (∃ o, framebuffer_update_display demo_space { dirty := [5], pending := [] } 0 4 4 16
        16 4 0 (-1) 7 = .ok o ∧ transform_rows o.trace = [-1] ∧
      o.bitmap.dirty = [5] ∧ o.trace.all (fun e => !is_clear e) = true) :=
  ⟨⟨_, rfl, rfl, rfl, by decide, by decide, by decide⟩, ⟨_, rfl, rfl, rfl, rfl⟩⟩

/-- C6 (amended): for every successful call of `framebuffer_update_display` or
`framebuffer_update_display_swap_pixman` with resume row `≥ 0` in which at least
one row was touched (block length `src_width * rows` non-negative and
representable as `int`), the dirty bitmap is cleared over exactly the byte range
of the whole block, `[offset, offset + src_width * rows)` with `offset` the
block's offset within the region: a byte is dirty afterwards iff it was dirty
after the sync and lies outside that range.  Every row of the block is cleared,
touched or not, scanned or not, the rows before the resume row included. -/
theorem clear_covers_whole_block (be : Bool) (aspace : AddressSpace)
    (linebuf_create : Nat → Int → pixman_image_t) (m : Int → Byte) (bm : DirtyBitmap)
    (ds : DisplaySurface) (base : Nat) (swapmode : framebuffer_swapmode) (format : Nat)
    (cols rows src_width dest_row_pitch dest_col_pitch invalidate first_row last_row : Int)
    (h0 : 0 ≤ first_row) :
    (∀ o, region_resolves aspace base src_width rows → block_maps aspace base src_width rows →
      0 ≤ src_width * rows → src_width * rows < 2147483648 →
      framebuffer_update_display aspace bm base cols rows src_width dest_row_pitch
        dest_col_pitch invalidate first_row last_row = .ok o →
      transform_rows o.trace ≠ [] →
      o.bitmap = memory_region_reset_dirty (memory_region_sync_dirty_bitmap bm)
        (block_section aspace base src_width rows).offset_within_region
        (src_width * rows).toNat ∧
      ∀ b : Nat, b ∈ o.bitmap.dirty ↔
        b ∈ (memory_region_sync_dirty_bitmap bm).dirty ∧
        ¬ ((block_section aspace base src_width rows).offset_within_region ≤ b ∧
           b < (block_section aspace base src_width rows).offset_within_region
             + (src_width * rows).toNat)) ∧
    (∀ o, region_resolves aspace base ds.stride ds.height →
      block_maps aspace base ds.stride ds.height →
      0 ≤ ds.stride * ds.height → ds.stride * ds.height < 2147483648 →
      framebuffer_update_display_swap_pixman be aspace linebuf_create m bm ds base swapmode
        format invalidate first_row last_row = .ok o →
      transform_rows o.trace ≠ [] →
      o.bitmap = memory_region_reset_dirty (memory_region_sync_dirty_bitmap bm)
        (block_section aspace base ds.stride ds.height).offset_within_region
        (ds.stride * ds.height).toNat ∧
      ∀ b : Nat, b ∈ o.bitmap.dirty ↔
        b ∈ (memory_region_sync_dirty_bitmap bm).dirty ∧
        ¬ ((block_section aspace base ds.stride ds.height).offset_within_region ≤ b ∧
           b < (block_section aspace base ds.stride ds.height).offset_within_region
             + (ds.stride * ds.height).toNat)) := by
  constructor
  · intro o hres hmap hl0 hl1 h ht
    rw [update_display_scanned _ _ _ _ _ _ _ _ _ _ _ hres hmap] at h
    split at h
    · rename_i hneg
      simp only [Except.ok.injEq] at h
      subst h
      exfalso
      apply ht
      have := scan_rows_first_neg (memory_region_sync_dirty_bitmap bm) cols rows src_width
        dest_row_pitch dest_col_pitch invalidate (rows - first_row).toNat _ h0 rfl hneg
      show transform_rows (_ ++ _ ++ _) = []
      simp only [transform_rows_append, this]
      rfl
    · simp only [Except.ok.injEq] at h
      subst h
      rw [block_len_toNat _ _ hl0 hl1]
      exact ⟨rfl, fun b => mem_reset_dirty _ _ _ b⟩
  · intro o hres hmap hl0 hl1 h ht
    rw [swap_pixman_scanned _ _ _ _ _ _ _ _ _ _ _ _ hres hmap] at h
    split at h
    · exact absurd h (by simp)
    · rename_i sc hsc
      have hc := scan_rows_swap_cursor _ _ _ _ _ _ _ _ _ _ _ _ hsc
      have hr := scan_rows_swap_rows _ _ _ _ _ _ _ _ _ _ _ _ hsc
      split at h
      · rename_i hneg
        simp only [Except.ok.injEq] at h
        subst h
        exfalso
        apply ht
        rw [hc] at hneg
        have := scan_rows_first_neg (memory_region_sync_dirty_bitmap bm) ds.width ds.height
          ds.stride 0 0 invalidate (ds.height - first_row).toNat _ h0 rfl hneg
        show transform_rows (_ ++ _ ++ _) = []
        simp only [transform_rows_append, hr, this]
        rfl
      · simp only [Except.ok.injEq] at h
        subst h
        rw [block_len_toNat _ _ hl0 hl1]
        exact ⟨rfl, fun b => mem_reset_dirty _ _ _ b⟩

/-- Instance of the amended C6: `rows = 4`, `src_width = 16`, resume row `2`, bytes
`16` (row 0), `56` (row 2) and `200` (outside the block) dirty: after the call only
byte `200` is dirty, for both entry points. -/
theorem clear_covers_whole_block_witness :
    (∃ o, framebuffer_update_display demo_space { dirty := [16, 56, 200], pending := [] } 0 4 4
        16 16 4 0 2 7 = .ok o ∧ o.bitmap.dirty = [200] ∧
      ∀ b : Nat, b ∈ o.bitmap.dirty ↔
        b ∈ (memory_region_sync_dirty_bitmap { dirty := [16, 56, 200], pending := [] }).dirty ∧
        ¬ ((block_section demo_space 0 16 4).offset_within_region ≤ b ∧
           b < (block_section demo_space 0 16 4).offset_within_region
             + ((16 : Int) * 4).toNat)) ∧
    (∃ o, framebuffer_update_display_swap_pixman false demo_space demo_linebuf demo_block
        { dirty := [16, 56, 200], pending := [] } { width := 4, height := 4, stride := 16 } 0
        framebuffer_swapmode.FB_SWAP_16_BYTES 0 0 2 7 = .ok o ∧ o.bitmap.dirty = [200] ∧
      ∀ b : Nat, b ∈ o.bitmap.dirty ↔
        b ∈ (memory_region_sync_dirty_bitmap { dirty := [16, 56, 200], pending := [] }).dirty ∧
        ¬ ((block_section demo_space 0 16 4).offset_within_region ≤ b ∧
           b < (block_section demo_space 0 16 4).offset_within_region
             + ((16 : Int) * 4).toNat)) :=
  ⟨⟨_, rfl, rfl,
    ((clear_covers_whole_block false demo_space demo_linebuf demo_block
      { dirty := [16, 56, 200], pending := [] } { width := 4, height := 4, stride := 16 } 0
      framebuffer_swapmode.FB_SWAP_16_BYTES 0 4 4 16 16 4 0 2 7 (by decide)).1 _
      ⟨rfl, rfl, rfl⟩ rfl (by decide) (by decide) rfl (by decide)).2⟩,
   ⟨_, rfl, rfl,
    ((clear_covers_whole_block false demo_space demo_linebuf demo_block
      { dirty := [16, 56, 200], pending := [] } { width := 4, height := 4, stride := 16 } 0
      framebuffer_swapmode.FB_SWAP_16_BYTES 0 4 4 16 16 4 0 2 7 (by decide)).2 _
      ⟨rfl, rfl, rfl⟩ rfl (by decide) (by decide) rfl (by decide)).2⟩⟩

/-! ### C7: a scan that touches nothing -/

theorem swap_loop_eq_units (unit : Nat) (body : Int → Nat → (Nat → Byte) → (Nat → Byte)) :
    ∀ (n : Nat) (s : Int) (d : Nat) (data : Nat → Byte),
      swap_loop unit body n (n : Int) s d data = .ok (swap_units unit body n s d data) := by
  intro n
  induction n with
  | zero => intro s d data; simp [swap_loop, swap_units]
  | succ n ih =>
    intro s d data
    have hne : ((n + 1 : Nat) : Int) ≠ 0 := by omega
    have hpred : ((n + 1 : Nat) : Int) - 1 = (n : Int) := by omega
    simp only [swap_loop, hne, ne_eq, not_false_eq_true, if_true, hpred, swap_units]
    exact ih _ _ _

/-- Outside the units written, the line keeps its bytes. -/
theorem swap_units_outside (unit : Nat) (body : Int → Nat → (Nat → Byte) → (Nat → Byte))
    (hframe : ∀ s d data q, (q < d ∨ d + unit ≤ q) → body s d data q = data q) :
    ∀ (n : Nat) (s : Int) (d : Nat) (data : Nat → Byte) (q : Nat),
      (q < d ∨ d + unit * n ≤ q) → swap_units unit body n s d data q = data q := by
  intro n
  induction n with
  | zero => intro s d data q _; rfl
  | succ n ih =>
    intro s d data q hq
    simp only [swap_units]
    have hmul : unit * (n + 1) = unit * n + unit := by ring
    rw [ih _ _ _ q (by omega)]
    exact hframe s d data q (by
      rcases hq with hq | hq
      · left; exact hq
      · right
        have : unit ≤ unit * n + unit := Nat.le_add_left _ _
        omega)

/-- Inside the units written, byte `j` of unit `k` is the byte the body computes
from the source unit `k`. -/
theorem swap_units_inside (unit : Nat) (body : Int → Nat → (Nat → Byte) → (Nat → Byte))
    (g : Int → Nat → Byte)
    (hframe : ∀ s d data q, (q < d ∨ d + unit ≤ q) → body s d data q = data q)
    (hval : ∀ s d data j, j < unit → body s d data (d + j) = g s j) :
    ∀ (n : Nat) (s : Int) (d : Nat) (data : Nat → Byte) (k j : Nat), k < n → j < unit →
      swap_units unit body n s d data (d + unit * k + j) = g (s + (unit * k : Nat)) j := by
  intro n
  induction n with
  | zero => intro s d data k j hk _; omega
  | succ n ih =>
    intro s d data k j hk hj
    simp only [swap_units]
    cases k with
    | zero =>
      rw [swap_units_outside unit body hframe n _ _ _ _ (by left; omega)]
      simp only [Nat.mul_zero, Nat.add_zero, Nat.cast_zero, add_zero]
      exact hval s d data j hj
    | succ k =>
      have h1 : d + unit * (k + 1) + j = (d + unit) + unit * k + j := by ring
      rw [h1, ih _ _ _ k j (by omega) hj]
      congr 1
      push_cast
      ring

theorem store16_frame (be : Bool) (v : Nat) (d : Nat) (data : Nat → Byte) (q : Nat)
    (hq : q < d ∨ d + 2 ≤ q) : store16 be data d v q = data q := by
  unfold store16
  rw [if_neg (by omega), if_neg (by omega)]

theorem store32_frame (be : Bool) (v : Nat) (d : Nat) (data : Nat → Byte) (q : Nat)
    (hq : q < d ∨ d + 4 ≤ q) : store32 be data d v q = data q := by
  unfold store32
  rw [if_neg (by omega), if_neg (by omega), if_neg (by omega), if_neg (by omega)]

/-- The expression of lines 149-150 keeps the low 32 bits of its operand as
they are: the two masks are `0xffff0000` and `0x0000ffff`, and nothing is shifted. -/
theorem swap_words_mod (x : Nat) : swap_words x = x % 4294967296 := by
  unfold swap_words
  have h1 : ((0x0000ffff <<< 16) % 4294967296 : Nat) = 0xffff0000 := by decide
  have h2 : ((0xffff0000 >>> 16) : Nat) = 0xffff := by decide
  rw [h1, h2, ← Nat.and_or_distrib_left]
  have h3 : (0xffff0000 ||| 0xffff : Nat) = 2 ^ 32 - 1 := by decide
  rw [h3, Nat.and_pow_two_sub_one_eq_mod]
  omega

theorem swap_words_eq (x : Nat) (h : x < 4294967296) : swap_words x = x := by
  rw [swap_words_mod]
  omega

theorem load32_lt (be : Bool) (m : Int → Byte) (p : Int) : load32 be m p < 4294967296 := by
  unfold load32
  have h0 := (m p).isLt
  have h1 := (m (p + 1)).isLt
  have h2 := (m (p + 2)).isLt
  have h3 := (m (p + 3)).isLt
  split <;> omega

theorem store16_at0 (be : Bool) (v d : Nat) (data : Nat → Byte) :
    store16 be data d v d = to_byte (if be then v / 256 else v) := by
  simp [store16]

theorem store16_at1 (be : Bool) (v d : Nat) (data : Nat → Byte) :
    store16 be data d v (d + 1) = to_byte (if be then v else v / 256) := by
  simp [store16]

theorem store32_at0 (be : Bool) (v d : Nat) (data : Nat → Byte) :
    store32 be data d v d = to_byte (if be then v / 16777216 else v) := by
  simp [store32]

theorem store32_at1 (be : Bool) (v d : Nat) (data : Nat → Byte) :
    store32 be data d v (d + 1) = to_byte (if be then v / 65536 else v / 256) := by
  simp [store32]

theorem store32_at2 (be : Bool) (v d : Nat) (data : Nat → Byte) :
    store32 be data d v (d + 2) = to_byte (if be then v / 256 else v / 65536) := by
  simp [store32]

theorem store32_at3 (be : Bool) (v d : Nat) (data : Nat → Byte) :
    store32 be data d v (d + 3) = to_byte (if be then v else v / 16777216) := by
  simp [store32]

theorem bytes2_lo (a b : Nat) (ha : a < 256) : (a + b * 256) % 256 = a := by omega
theorem bytes2_hi (a b : Nat) (ha : a < 256) : (a + b * 256) / 256 = b := by omega
theorem bytes4_0 (a b c d : Nat) (ha : a < 256) :
    (a + b * 256 + c * 65536 + d * 16777216) % 256 = a := by omega
theorem bytes4_1 (a b c d : Nat) (ha : a < 256) (hb : b < 256) :
    (a + b * 256 + c * 65536 + d * 16777216) / 256 % 256 = b := by omega
theorem bytes4_2 (a b c d : Nat) (ha : a < 256) (hb : b < 256) (hc : c < 256) :
    (a + b * 256 + c * 65536 + d * 16777216) / 65536 % 256 = c := by omega
theorem bytes4_3 (a b c d : Nat) (ha : a < 256) (hb : b < 256) (hc : c < 256) (hd : d < 256) :
    (a + b * 256 + c * 65536 + d * 16777216) / 16777216 % 256 = d := by omega
theorem bswap16_bytes (a b : Nat) (ha : a < 256) (hb : b < 256) :
    bswap16 (a + b * 256) = b + a * 256 := by
  unfold bswap16
  rw [bytes2_lo a b ha, bytes2_hi a b ha, Nat.mod_eq_of_lt hb]
  omega
theorem bswap32_bytes (a b c d : Nat) (ha : a < 256) (hb : b < 256) (hc : c < 256) (hd : d < 256) :
    bswap32 (a + b * 256 + c * 65536 + d * 16777216)
      = d + c * 256 + b * 65536 + a * 16777216 := by
  unfold bswap32
  rw [bytes4_0 a b c d ha, bytes4_1 a b c d ha hb, bytes4_2 a b c d ha hb hc,
    bytes4_3 a b c d ha hb hc hd]
  omega

theorem bswap16_load16 (be : Bool) (m : Int → Byte) (s : Int) :
    bswap16 (load16 be m s) =
      if be then (m s).val + (m (s + 1)).val * 256 else (m (s + 1)).val + (m s).val * 256 := by
  have h0 := (m s).isLt
  have h1 := (m (s + 1)).isLt
  cases be
  · simp only [load16, Bool.false_eq_true, if_false]
    exact bswap16_bytes _ _ h0 h1
  · simp only [load16, if_true]
    rw [show (m s).val * 256 + (m (s + 1)).val = (m (s + 1)).val + (m s).val * 256 by omega]
    exact bswap16_bytes _ _ h1 h0

theorem bswap32_load32 (be : Bool) (m : Int → Byte) (s : Int) :
    bswap32 (load32 be m s) =
      if be then
        (m s).val + (m (s + 1)).val * 256 + (m (s + 2)).val * 65536
          + (m (s + 3)).val * 16777216
      else
        (m (s + 3)).val + (m (s + 2)).val * 256 + (m (s + 1)).val * 65536
          + (m s).val * 16777216 := by
  have h0 := (m s).isLt
  have h1 := (m (s + 1)).isLt
  have h2 := (m (s + 2)).isLt
  have h3 := (m (s + 3)).isLt
  cases be
  · simp only [load32, Bool.false_eq_true, if_false]
    exact bswap32_bytes _ _ _ _ h0 h1 h2 h3
  · simp only [load32, if_true]
    rw [show (m s).val * 16777216 + (m (s + 1)).val * 65536 + (m (s + 2)).val * 256
          + (m (s + 3)).val
        = (m (s + 3)).val + (m (s + 2)).val * 256 + (m (s + 1)).val * 65536
          + (m s).val * 16777216 by omega]
    exact bswap32_bytes _ _ _ _ h3 h2 h1 h0

/-- `*d16 = bswap16(*s16)` stores the two source bytes in reverse order, on
either host byte order. -/
theorem swap16_body (be : Bool) (m : Int → Byte) (s : Int) (d : Nat) (data : Nat → Byte)
    (j : Nat) (hj : j < 2) :
    store16 be data d (bswap16 (load16 be m s)) (d + j) = m (s + ((1 - j : Nat) : Int)) := by
  have h0 := (m s).isLt
  have h1 := (m (s + 1)).isLt
  rw [bswap16_load16]
  have hj2 : j = 0 ∨ j = 1 := by omega
  rcases hj2 with hj2 | hj2 <;> subst hj2
  · rw [Nat.add_zero, store16_at0]
    show _ = m (s + 1)
    apply Fin.ext
    cases be <;> simp only [to_byte, if_true, Bool.false_eq_true, if_false] <;> omega
  · rw [store16_at1]
    show _ = m (s + 0)
    rw [add_zero]
    apply Fin.ext
    cases be <;> simp only [to_byte, if_true, Bool.false_eq_true, if_false] <;> omega

/-- `*d32 = bswap32(*s32)` stores the four source bytes in reverse order, on
either host byte order. -/
theorem swap32_body (be : Bool) (m : Int → Byte) (s : Int) (d : Nat) (data : Nat → Byte)
    (j : Nat) (hj : j < 4) :
    store32 be data d (bswap32 (load32 be m s)) (d + j) = m (s + ((3 - j : Nat) : Int)) := by
  have h0 := (m s).isLt
  have h1 := (m (s + 1)).isLt
  have h2 := (m (s + 2)).isLt
  have h3 := (m (s + 3)).isLt
  rw [bswap32_load32]
  have hj4 : j = 0 ∨ j = 1 ∨ j = 2 ∨ j = 3 := by omega
  rcases hj4 with hj4 | hj4 | hj4 | hj4 <;> subst hj4
  · rw [Nat.add_zero, store32_at0]
    show _ = m (s + 3)
    apply Fin.ext
    cases be <;> simp only [to_byte, if_true, Bool.false_eq_true, if_false] <;> omega
  · rw [store32_at1]
    show _ = m (s + 2)
    apply Fin.ext
    cases be <;> simp only [to_byte, if_true, Bool.false_eq_true, if_false] <;> omega
  · rw [store32_at2]
    show _ = m (s + 1)
    apply Fin.ext
    cases be <;> simp only [to_byte, if_true, Bool.false_eq_true, if_false] <;> omega
  · rw [store32_at3]
    show _ = m (s + 0)
    rw [add_zero]
    apply Fin.ext
    cases be <;> simp only [to_byte, if_true, Bool.false_eq_true, if_false] <;> omega

/-- `*d32 = (*s32 & 0x0000ffff << 16) | (*s32 & 0xffff0000 >> 16)` stores the four
source bytes in their original order, on either host byte order. -/
theorem swap_words_body (be : Bool) (m : Int → Byte) (s : Int) (d : Nat) (data : Nat → Byte)
    (j : Nat) (hj : j < 4) :
    store32 be data d (swap_words (load32 be m s)) (d + j) = m (s + (j : Int)) := by
  rw [swap_words_eq _ (load32_lt be m s)]
  have h0 := (m s).isLt
  have h1 := (m (s + 1)).isLt
  have h2 := (m (s + 2)).isLt
  have h3 := (m (s + 3)).isLt
  have hj4 : j = 0 ∨ j = 1 ∨ j = 2 ∨ j = 3 := by omega
  rcases hj4 with hj4 | hj4 | hj4 | hj4 <;> subst hj4
  · rw [Nat.add_zero, store32_at0]
    show _ = m (s + 0)
    rw [add_zero]
    apply Fin.ext
    cases be <;> simp only [to_byte, load32, if_true, Bool.false_eq_true, if_false] <;> omega
  · rw [store32_at1]
    show _ = m (s + 1)
    apply Fin.ext
    cases be <;> simp only [to_byte, load32, if_true, Bool.false_eq_true, if_false] <;> omega
  · rw [store32_at2]
    show _ = m (s + 2)
    apply Fin.ext
    cases be <;> simp only [to_byte, load32, if_true, Bool.false_eq_true, if_false] <;> omega
  · rw [store32_at3]
    show _ = m (s + 3)
    apply Fin.ext
    cases be <;> simp only [to_byte, load32, if_true, Bool.false_eq_true, if_false] <;> omega

/-- A loop of `framebuffer_swap` on a line of non-negative stride: it runs to
completion, writes `n = stride / unit` units, and byte `j` of destination unit `k`
is the byte `g` computes from source unit `k`. -/
theorem swap_loop_bytes (unit : Nat) (body : Int → Nat → (Nat → Byte) → (Nat → Byte))
    (g : Int → Nat → Byte)
    (hframe : ∀ s d data q, (q < d ∨ d + unit ≤ q) → body s d data q = data q)
    (hval : ∀ s d data j, j < unit → body s d data (d + j) = g s j)
    (n : Nat) (src : Int) (data : Nat → Byte) :
    ∃ out, swap_loop unit body n (n : Int) src 0 data = .ok out ∧
      (∀ k j, k < n → j < unit → out (unit * k + j) = g (src + ((unit * k : Nat) : Int)) j) ∧
      (∀ q, unit * n ≤ q → out q = data q) := by
  refine ⟨_, swap_loop_eq_units unit body n src 0 data, ?_, ?_⟩
  · intro k j hk hj
    have := swap_units_inside unit body g hframe hval n src 0 data k j hk hj
    rw [Nat.zero_add] at this
    exact this
  · intro q hq
    exact swap_units_outside unit body hframe n src 0 data q (by right; omega)

theorem tdiv_toNat (x : Int) (hx : 0 ≤ x) (u : Nat) :
    Int.tdiv x (u : Int) = ((x.toNat / u : Nat) : Int) := by
  obtain ⟨n, rfl⟩ := Int.eq_ofNat_of_zero_le hx
  simp only [Int.toNat_ofNat]
  rfl

/-- What `framebuffer_swap` does to the bytes of a line of non-negative stride, in
each mode other than `FB_SWAP_NONE`: it returns, keeps the stride, writes the
`stride / unit` whole units of the line, byte `j` of unit `k` being byte
`unit_source mode j` of source unit `k`, and leaves every byte beyond them. -/
theorem framebuffer_swap_bytes (be : Bool) (mode : framebuffer_swapmode) (dest : pixman_image_t)
    (m : Int → Byte) (src : Int) (hmode : mode ≠ framebuffer_swapmode.FB_SWAP_NONE)
    (hs : 0 ≤ dest.stride) :
    ∃ out, framebuffer_swap be mode dest m src = .ok out ∧ out.stride = dest.stride ∧
      (∀ k j, k < dest.stride.toNat / unit_size mode → j < unit_size mode →
        out.data (unit_size mode * k + j)
          = m (src + ((unit_size mode * k + unit_source mode j : Nat) : Int))) ∧
      (∀ q, unit_size mode * (dest.stride.toNat / unit_size mode) ≤ q →
        out.data q = dest.data q) := by
  cases mode with
  | FB_SWAP_NONE => exact absurd rfl hmode
  | FB_SWAP_16_BYTES =>
    obtain ⟨out, h1, h2, h3⟩ := swap_loop_bytes 2
      (fun s d data => store16 be data d (bswap16 (load16 be m s)))
      (fun s j => m (s + ((1 - j : Nat) : Int)))
      (fun s d data q hq => store16_frame be _ d data q hq)
      (fun s d data j hj => swap16_body be m s d data j hj)
      (dest.stride.toNat / 2) src dest.data
    refine ⟨{ dest with data := out }, ?_, rfl, ?_, h3⟩
    · simp only [framebuffer_swap]
      rw [show (2 : Int) = ((2 : Nat) : Int) from rfl, tdiv_toNat _ hs 2, Int.toNat_ofNat]
      rw [h1]
      rfl
    · intro k j hk hj
      simp only [unit_size, unit_source] at hk hj ⊢
      rw [h2 k j hk hj]
      congr 1
      push_cast
      ring
  | FB_SWAP_32_BYTES =>
    obtain ⟨out, h1, h2, h3⟩ := swap_loop_bytes 4
      (fun s d data => store32 be data d (bswap32 (load32 be m s)))
      (fun s j => m (s + ((3 - j : Nat) : Int)))
      (fun s d data q hq => store32_frame be _ d data q hq)
      (fun s d data j hj => swap32_body be m s d data j hj)
      (dest.stride.toNat / 4) src dest.data
    refine ⟨{ dest with data := out }, ?_, rfl, ?_, h3⟩
    · simp only [framebuffer_swap]
      rw [show (4 : Int) = ((4 : Nat) : Int) from rfl, tdiv_toNat _ hs 4, Int.toNat_ofNat]
      rw [h1]
      rfl
    · intro k j hk hj
      simp only [unit_size, unit_source] at hk hj ⊢
      rw [h2 k j hk hj]
      congr 1
      push_cast
      ring
  | FB_SWAP_32_WORDS =>
    obtain ⟨out, h1, h2, h3⟩ := swap_loop_bytes 4
      (fun s d data => store32 be data d (swap_words (load32 be m s)))
      (fun s j => m (s + (j : Int)))
      (fun s d data q hq => store32_frame be _ d data q hq)
      (fun s d data j hj => swap_words_body be m s d data j hj)
      (dest.stride.toNat / 4) src dest.data
    refine ⟨{ dest with data := out }, ?_, rfl, ?_, h3⟩
    · simp only [framebuffer_swap]
      rw [show (4 : Int) = ((4 : Nat) : Int) from rfl, tdiv_toNat _ hs 4, Int.toNat_ofNat]
      rw [h1]
      rfl
    · intro k j hk hj
      simp only [unit_size, unit_source] at hk hj ⊢
      rw [h2 k j hk hj]
      congr 1
      push_cast
      ring

/-! ### C8: mode `FB_SWAP_32_WORDS` -/

/-- C8 (the code at the failing input): in mode `FB_SWAP_32_WORDS` the value
stored for a source unit `x` is `x` itself (modulo `2^32`), not the unit with its
16-bit halves exchanged: for the unit `0x11223344` the code stores `0x11223344`
where the halfword exchange gives `0x33441122`, and the line written by
`framebuffer_swap` holds the source bytes `0x44, 0x33, 0x22, 0x11` unchanged on
either host byte order. -/
theorem swap_32_words_stores_unit_unchanged :
    (∀ x : Nat, swap_words x = x % 4294967296) ∧
    swap_words 0x11223344 = 0x11223344 ∧
    spec_swap_words 0x11223344 = 0x33441122 ∧
    (framebuffer_swap false framebuffer_swapmode.FB_SWAP_32_WORDS demo_line4 demo_unit_row
      0).toOption.map line_bytes = some [0x44, 0x33, 0x22, 0x11] ∧
    (framebuffer_swap true framebuffer_swapmode.FB_SWAP_32_WORDS demo_line4 demo_unit_row
      0).toOption.map line_bytes = some [0x44, 0x33, 0x22, 0x11] :=
  ⟨swap_words_mod, by decide, by decide, by decide, by decide⟩

/-! ### C9: swapping twice -/

theorem unit_source_lt (mode : framebuffer_swapmode) (j : Nat) (hj : j < unit_size mode) :
    unit_source mode j < unit_size mode := by
  cases mode <;> simp only [unit_size, unit_source] at hj ⊢ <;> omega

theorem unit_source_twice (mode : framebuffer_swapmode) (j : Nat) (hj : j < unit_size mode) :
    unit_source mode (unit_source mode j) = j := by
  cases mode <;> simp only [unit_size, unit_source] at hj ⊢ <;> omega

theorem unit_size_pos (mode : framebuffer_swapmode) : 0 < unit_size mode := by
  cases mode <;> simp [unit_size]

/-- C9: for each of the modes `FB_SWAP_16_BYTES`, `FB_SWAP_32_BYTES` and
`FB_SWAP_32_WORDS` and every source row as long as the stride of the line buffer
(a multiple of the unit size), `framebuffer_swap` returns, and applied once more to
its own output (same mode, a line buffer of the same stride) it returns the
original bytes of the row: each mode is its own inverse. -/
theorem swap_twice_restores_row (be : Bool) (mode : framebuffer_swapmode)
    (dest dest2 : pixman_image_t) (m : Int → Byte) (src : Int)
    (hmode : mode ≠ framebuffer_swapmode.FB_SWAP_NONE) (hs : 0 ≤ dest.stride)
    (hdiv : dest.stride % (unit_size mode : Int) = 0) (h2 : dest2.stride = dest.stride) :
    ∃ out1 out2, framebuffer_swap be mode dest m src = .ok out1 ∧
      framebuffer_swap be mode dest2 (line_memory out1) 0 = .ok out2 ∧
      ∀ q : Nat, (q : Int) < dest.stride → out2.data q = m (src + (q : Int)) := by
  obtain ⟨out1, ho1, _, hin1, _⟩ := framebuffer_swap_bytes be mode dest m src hmode hs
  obtain ⟨out2, ho2, _, hin2, _⟩ := framebuffer_swap_bytes be mode dest2 (line_memory out1) 0
    hmode (by rw [h2]; exact hs)
  refine ⟨out1, out2, ho1, ho2, ?_⟩
  intro q hq
  have hu := unit_size_pos mode
  obtain ⟨n, hn⟩ := Int.eq_ofNat_of_zero_le hs
  have hdvd : unit_size mode ∣ n := by
    rw [hn] at hdiv
    have : (unit_size mode : Int) ∣ (n : Int) := Int.dvd_of_emod_eq_zero hdiv
    exact Int.natCast_dvd_natCast.mp this
  have hsn : dest.stride.toNat = n := by rw [hn]; rfl
  have hqn : q < n := by rw [hn] at hq; exact_mod_cast hq
  have hk : q / unit_size mode < dest.stride.toNat / unit_size mode := by
    rw [hsn]
    exact Nat.div_lt_div_of_lt_of_dvd hdvd hqn
  have hj : q % unit_size mode < unit_size mode := Nat.mod_lt _ hu
  have hq' : q = unit_size mode * (q / unit_size mode) + q % unit_size mode :=
    (Nat.div_add_mod q (unit_size mode)).symm
  have hk2 : q / unit_size mode < dest2.stride.toNat / unit_size mode := by rw [h2]; exact hk
  have e2 := hin2 (q / unit_size mode) (q % unit_size mode) hk2 hj
  have e1 := hin1 (q / unit_size mode) (unit_source mode (q % unit_size mode)) hk
    (unit_source_lt mode _ hj)
  rw [unit_source_twice mode _ hj, ← hq'] at e1
  rw [← hq'] at e2
  rw [e2]
  unfold line_memory
  rw [zero_add, Int.toNat_ofNat, e1]

/-- Instance of C9: the four-byte row `0x44, 0x33, 0x22, 0x11` swapped twice, in
each of the three modes. -/
theorem swap_twice_restores_row_witness :
    (∃ out1 out2, framebuffer_swap false framebuffer_swapmode.FB_SWAP_16_BYTES demo_line4
        demo_unit_row 0 = .ok out1 ∧
      framebuffer_swap false framebuffer_swapmode.FB_SWAP_16_BYTES demo_line4
        (line_memory out1) 0 = .ok out2 ∧
      ∀ q : Nat, (q : Int) < demo_line4.stride → out2.data q = demo_unit_row (0 + (q : Int))) ∧
    (∃ out1 out2, framebuffer_swap false framebuffer_swapmode.FB_SWAP_32_BYTES demo_line4
        demo_unit_row 0 = .ok out1 ∧
      framebuffer_swap false framebuffer_swapmode.FB_SWAP_32_BYTES demo_line4
        (line_memory out1) 0 = .ok out2 ∧
      ∀ q : Nat, (q : Int) < demo_line4.stride → out2.data q = demo_unit_row (0 + (q : Int))) ∧
    (∃ out1 out2, framebuffer_swap false framebuffer_swapmode.FB_SWAP_32_WORDS demo_line4
        demo_unit_row 0 = .ok out1 ∧
      framebuffer_swap false framebuffer_swapmode.FB_SWAP_32_WORDS demo_line4
        (line_memory out1) 0 = .ok out2 ∧
      ∀ q : Nat, (q : Int) < demo_line4.stride → out2.data q = demo_unit_row (0 + (q : Int))) :=
  ⟨swap_twice_restores_row false framebuffer_swapmode.FB_SWAP_16_BYTES demo_line4 demo_line4
      demo_unit_row 0 (by decide) (by decide) (by decide) rfl,
   swap_twice_restores_row false framebuffer_swapmode.FB_SWAP_32_BYTES demo_line4 demo_line4
      demo_unit_row 0 (by decide) (by decide) (by decide) rfl,
   swap_twice_restores_row false framebuffer_swapmode.FB_SWAP_32_WORDS demo_line4 demo_line4
      demo_unit_row 0 (by decide) (by decide) (by decide) rfl⟩

/-! ### The calls return -/

/-- `framebuffer_update_display` returns unless the second assertion
(`mem_section.offset_within_address_space == base`, line 63) fails. -/
theorem update_display_returns (aspace : AddressSpace) (bm : DirtyBitmap) (base : Nat)
    (cols rows sw drp dcp inv r lr : Int)
    (hbase : (block_section aspace base sw rows).offset_within_address_space = base) :
    ∃ o, framebuffer_update_display aspace bm base cols rows sw drp dcp inv r lr = .ok o := by
  by_cases hsz : (block_section aspace base sw rows).size ≠ block_len sw rows ∨
      memory_region_is_ram (block_section aspace base sw rows).mr = false
  · exact ⟨_, update_display_unresolved _ _ _ _ _ _ _ _ _ _ _ hsz⟩
  · have hres : region_resolves aspace base sw rows := by
      refine ⟨?_, ?_, hbase⟩
      · by_contra h; exact hsz (Or.inl h)
      · cases hram : memory_region_is_ram (block_section aspace base sw rows).mr
        · exact absurd (Or.inr hram) hsz
        · rfl
    cases hm : aspace.cpu_physical_memory_map base (block_len sw rows) with
    | none => exact ⟨_, update_display_map_null _ _ _ _ _ _ _ _ _ _ _ hres hm⟩
    | some len1 =>
      by_cases hl : len1 = block_len sw rows
      · rw [hl] at hm
        rw [update_display_scanned _ _ _ _ _ _ _ _ _ _ _ hres hm]
        split
        · exact ⟨_, rfl⟩
        · exact ⟨_, rfl⟩
      · exact ⟨_, update_display_map_short _ _ _ _ _ _ _ _ _ _ _ len1 hres hm hl⟩

/-- In a mode other than `FB_SWAP_NONE` and with a line buffer of non-negative
stride, the row loop of the swap variant runs to completion. -/
theorem scan_rows_swap_returns (be : Bool) (bm : DirtyBitmap) (m : Int → Byte)
    (mode : framebuffer_swapmode) (cols rows sw inv : Int)
    (hmode : mode ≠ framebuffer_swapmode.FB_SWAP_NONE) :
    ∀ (fuel : Nat) (c : Cursor) (lb : pixman_image_t), 0 ≤ lb.stride →
      ∃ r, scan_rows_swap be bm m mode cols rows sw inv fuel c lb = .ok r := by
  intro fuel
  induction fuel with
  | zero => intro c lb _; exact ⟨_, rfl⟩
  | succ n ih =>
    intro c lb hs
    simp only [scan_rows_swap]
    split
    · split
      · obtain ⟨out, ho, hstride, _, _⟩ := framebuffer_swap_bytes be mode lb m c.src hmode hs
        rw [ho]
        simp only []
        obtain ⟨r, hr⟩ := ih
          { i := c.i + 1, addr := addr_add c.addr (to_hwaddr sw), src := c.src + sw,
            dest := c.dest, first := if c.first = -1 then c.i else c.first, last := c.i }
          out (by rw [hstride]; exact hs)
        rw [hr]
        exact ⟨_, rfl⟩
      · obtain ⟨r, hr⟩ := ih
          { i := c.i + 1, addr := addr_add c.addr (to_hwaddr sw), src := c.src + sw,
            dest := c.dest, first := c.first, last := c.last }
          lb hs
        rw [hr]
        exact ⟨_, rfl⟩
    · exact ⟨_, rfl⟩

/-- `framebuffer_update_display_swap_pixman` returns when the second assertion
holds, the mode is not `FB_SWAP_NONE` and the line buffer has a non-negative
stride. -/
theorem swap_pixman_returns (be : Bool) (aspace : AddressSpace)
    (lbc : Nat → Int → pixman_image_t) (m : Int → Byte) (bm : DirtyBitmap)
    (ds : DisplaySurface) (base : Nat) (mode : framebuffer_swapmode) (format : Nat)
    (inv r lr : Int)
    (hbase : (block_section aspace base ds.stride ds.height).offset_within_address_space = base)
    (hmode : mode ≠ framebuffer_swapmode.FB_SWAP_NONE)
    (hstride : 0 ≤ (lbc format ds.width).stride) :
    ∃ o, framebuffer_update_display_swap_pixman be aspace lbc m bm ds base mode format
      inv r lr = .ok o := by
  by_cases hsz : (block_section aspace base ds.stride ds.height).size
        ≠ block_len ds.stride ds.height ∨
      memory_region_is_ram (block_section aspace base ds.stride ds.height).mr = false
  · refine ⟨{ first_row := -1, last_row := lr, bitmap := bm,
              trace := [Event.find base (block_len ds.stride ds.height), Event.unref] }, ?_⟩
    unfold block_section block_len at hsz
    simp only [framebuffer_update_display_swap_pixman]
    rw [if_pos hsz]
    rfl
  · have hres : region_resolves aspace base ds.stride ds.height := by
      refine ⟨?_, ?_, hbase⟩
      · by_contra h; exact hsz (Or.inl h)
      · cases hram : memory_region_is_ram (block_section aspace base ds.stride ds.height).mr
        · exact absurd (Or.inr hram) hsz
        · rfl
    cases hm : aspace.cpu_physical_memory_map base (block_len ds.stride ds.height) with
    | none => exact ⟨_, swap_pixman_map_null _ _ _ _ _ _ _ _ _ _ _ _ hres hm⟩
    | some len1 =>
      by_cases hl : len1 = block_len ds.stride ds.height
      · rw [hl] at hm
        rw [swap_pixman_scanned _ _ _ _ _ _ _ _ _ _ _ _ hres hm]
        obtain ⟨sc, hsc⟩ := scan_rows_swap_returns be (memory_region_sync_dirty_bitmap bm) m mode
          ds.width ds.height ds.stride inv hmode (ds.height - r).toNat
          (start_cursor_swap (block_section aspace base ds.stride ds.height).offset_within_region
            ds.stride r) (lbc format ds.width) hstride
        rw [hsc]
        simp only []
        split
        · exact ⟨_, rfl⟩
        · exact ⟨_, rfl⟩
      · exact ⟨_, swap_pixman_map_short _ _ _ _ _ _ _ _ _ _ _ _ len1 hres hm hl⟩

/-! ### The swap variant and the generic loop, event by event -/

/-- When the row loop of the swap variant completes, it has walked as the generic
loop does from any cursor on the same walk, whatever the columns and pitches of
the latter: same exit row, same recorded span, same queries, same rows drawn; and
it has only queried the bitmap and drawn lines. -/
theorem scan_rows_swap_skeleton (be : Bool) (bm : DirtyBitmap) (m : Int → Byte)
    (mode : framebuffer_swapmode) (cols cols2 rows sw drp dcp inv : Int) :
    ∀ (fuel : Nat) (c c2 : Cursor) (lb : pixman_image_t) (r : Cursor × List Event),
      scan_rows_swap be bm m mode cols rows sw inv fuel c lb = .ok r → same_walk c c2 →
      same_walk r.1 (scan_rows bm cols2 rows sw drp dcp inv fuel c2).1 ∧
      r.2.filter is_query = (scan_rows bm cols2 rows sw drp dcp inv fuel c2).2.filter is_query ∧
      transform_rows r.2 = transform_rows (scan_rows bm cols2 rows sw drp dcp inv fuel c2).2 ∧
      r.2.all (fun e => is_query e || is_transform e) = true := by
  intro fuel
  induction fuel with
  | zero =>
    intro c c2 lb r h hw
    simp only [scan_rows_swap, Except.ok.injEq] at h
    subst h
    exact ⟨hw, rfl, rfl, rfl⟩
  | succ n ih =>
    intro c c2 lb r h hw
    obtain ⟨hi, ha, hf, hl⟩ := hw
    simp only [scan_rows_swap] at h
    split at h
    · rename_i hlt
      have hlt2 : c2.i < rows := by rw [← hi]; exact hlt
      split at h
      · rename_i ht
        have ht2 : touched bm sw inv c2 = true := by
          unfold touched; rw [← ha]; exact ht
        rw [scan_rows_touched _ _ _ _ _ _ _ _ _ hlt2 ht2]
        split at h
        · exact absurd h (by simp)
        · split at h
          · exact absurd h (by simp)
          · rename_i r1 hr1
            obtain ⟨h1, h2, h3, h4⟩ := ih _ (step_touched sw drp c2) _ _ hr1
              ⟨by simp only [step_touched, hi], by simp only [step_touched, ha],
               by simp only [step_touched, hf, hi], by simp only [step_touched, hi]⟩
            simp only [Except.ok.injEq] at h
            subst h
            refine ⟨h1, ?_, ?_, ?_⟩
            · simp only [List.filter_append, h2, ha]
              simp [is_query, List.filter_cons]
            · simp only [transform_rows_append, h3, hi]
              simp [transform_rows]
            · simp only [List.all_append, h4, Bool.and_true]
              rfl
      · rename_i ht
        have ht2 : touched bm sw inv c2 = false := by
          unfold touched; rw [← ha]; simpa using ht
        rw [scan_rows_clean _ _ _ _ _ _ _ _ _ hlt2 ht2]
        split at h
        · exact absurd h (by simp)
        · rename_i r1 hr1
          obtain ⟨h1, h2, h3, h4⟩ := ih _ (step_clean sw drp c2) _ _ hr1
            ⟨by simp only [step_clean, hi], by simp only [step_clean, ha],
             by simp only [step_clean, hf], by simp only [step_clean, hl]⟩
          simp only [Except.ok.injEq] at h
          subst h
          refine ⟨h1, ?_, ?_, ?_⟩
          · simp only [List.filter_append, h2, ha]
          · simp only [transform_rows_append, h3]
            simp [transform_rows]
          · simp only [List.all_append, h4, Bool.and_true]
            rfl
    · rename_i hlt
      have hlt2 : ¬ c2.i < rows := by rw [← hi]; exact hlt
      rw [scan_rows_done _ _ _ _ _ _ _ _ _ hlt2]
      simp only [Except.ok.injEq] at h
      subst h
      exact ⟨⟨hi, ha, hf, hl⟩, rfl, rfl, rfl⟩

/-- A count over events that are neither queries nor transform calls is zero on
the calls of a row loop. -/
theorem countP_scan_zero (p : Event → Bool) (l : List Event)
    (hl : l.all (fun e => is_query e || is_transform e) = true)
    (hp : ∀ e, p e = true → (is_query e || is_transform e) = false) :
    l.countP p = 0 := by
  rw [List.countP_eq_zero]
  intro e he hpe
  rw [List.all_eq_true] at hl
  have h1 := hl e he
  have h2 := hp e hpe
  rw [h2] at h1
  exact absurd h1 (by simp)

/-! ### The paths of the two entry points -/

theorem resolves_of_not_mismatch (aspace : AddressSpace) (base : Nat) (sw rows : Int)
    (hmis : ¬ region_mismatch aspace base sw rows)
    (hbase : (block_section aspace base sw rows).offset_within_address_space = base) :
    region_resolves aspace base sw rows := by
  refine ⟨?_, ?_, hbase⟩
  · by_contra hc; exact hmis (Or.inl hc)
  · cases hram : memory_region_is_ram (block_section aspace base sw rows).mr
    · exact absurd (Or.inr hram) hmis
    · rfl

/-- When the region passes the test of lines 58-59 but does not start at `base`,
the assertion of line 63 stops `framebuffer_update_display`. -/
theorem update_display_assert (aspace : AddressSpace) (bm : DirtyBitmap) (base : Nat)
    (cols rows sw drp dcp inv r lr : Int)
    (hmis : ¬ region_mismatch aspace base sw rows)
    (hbase : (block_section aspace base sw rows).offset_within_address_space ≠ base) :
    framebuffer_update_display aspace bm base cols rows sw drp dcp inv r lr
      = .error Fatal.assert_failed := by
  unfold region_mismatch at hmis
  unfold block_section block_len at hmis hbase
  simp only [framebuffer_update_display]
  rw [if_neg hmis]
  split
  · rfl
  · rfl

/-- The same for `framebuffer_update_display_swap_pixman`. -/
theorem swap_pixman_assert (be : Bool) (aspace : AddressSpace)
    (lbc : Nat → Int → pixman_image_t) (m : Int → Byte) (bm : DirtyBitmap)
    (ds : DisplaySurface) (base : Nat) (mode : framebuffer_swapmode) (format : Nat)
    (inv r lr : Int)
    (hmis : ¬ region_mismatch aspace base ds.stride ds.height)
    (hbase : (block_section aspace base ds.stride ds.height).offset_within_address_space
      ≠ base) :
    framebuffer_update_display_swap_pixman be aspace lbc m bm ds base mode format inv r lr
      = .error Fatal.assert_failed := by
  unfold region_mismatch at hmis
  unfold block_section block_len at hmis hbase
  simp only [framebuffer_update_display_swap_pixman]
  rw [if_neg hmis]
  split
  · rfl
  · rfl

/-- Region mismatch in the swap variant. -/
theorem swap_pixman_unresolved (be : Bool) (aspace : AddressSpace)
    (lbc : Nat → Int → pixman_image_t) (m : Int → Byte) (bm : DirtyBitmap)
    (ds : DisplaySurface) (base : Nat) (mode : framebuffer_swapmode) (format : Nat)
    (inv r lr : Int) (hmis : region_mismatch aspace base ds.stride ds.height) :
    framebuffer_update_display_swap_pixman be aspace lbc m bm ds base mode format inv r lr =
      .ok { first_row := -1, last_row := lr, bitmap := bm,
            trace := [Event.find base (block_len ds.stride ds.height), Event.unref] } := by
  unfold region_mismatch block_section block_len at hmis
  simp only [framebuffer_update_display_swap_pixman]
  rw [if_pos hmis]
  rfl

/-- The four ways `framebuffer_update_display` returns, with the calls made on
each: region mismatch; null mapping; short mapping; scan (the calls of the row
loop, all of them queries or transform calls, then the unmapping, the clear when
a span is reported, and the release). -/
theorem update_display_paths (aspace : AddressSpace) (bm : DirtyBitmap) (base : Nat)
    (cols rows sw drp dcp inv r lr : Int) (o : Outcome)
    (h : framebuffer_update_display aspace bm base cols rows sw drp dcp inv r lr = .ok o) :
    (region_mismatch aspace base sw rows ∧
      o.trace = [Event.find base (block_len sw rows), Event.unref]) ∨
    (¬ region_mismatch aspace base sw rows ∧
      aspace.cpu_physical_memory_map base (block_len sw rows) = none ∧
      o.trace = [Event.find base (block_len sw rows), Event.sync,
                 Event.map base (block_len sw rows), Event.unref]) ∨
    (¬ region_mismatch aspace base sw rows ∧
      ∃ len1, aspace.cpu_physical_memory_map base (block_len sw rows) = some len1 ∧
        len1 ≠ block_len sw rows ∧
        o.trace = [Event.find base (block_len sw rows), Event.sync,
                   Event.map base (block_len sw rows), Event.unmap len1, Event.unref]) ∨
    (¬ region_mismatch aspace base sw rows ∧
      aspace.cpu_physical_memory_map base (block_len sw rows) = some (block_len sw rows) ∧
      ∃ scan tail, o.trace = [Event.find base (block_len sw rows), Event.sync,
                 Event.map base (block_len sw rows)] ++ scan ++ tail ∧
        scan.all (fun e => is_query e || is_transform e) = true ∧
        (tail = [Event.unmap (block_len sw rows), Event.unref] ∨
         tail = [Event.unmap (block_len sw rows),
                 Event.reset_dirty (block_section aspace base sw rows).offset_within_region
                   (block_len sw rows), Event.unref])) := by
  by_cases hmis : region_mismatch aspace base sw rows
  · rw [update_display_unresolved _ _ _ _ _ _ _ _ _ _ _ hmis] at h
    simp only [Except.ok.injEq] at h
    subst h
    exact Or.inl ⟨hmis, rfl⟩
  · by_cases hbase : (block_section aspace base sw rows).offset_within_address_space = base
    · have hres := resolves_of_not_mismatch aspace base sw rows hmis hbase
      cases hm : aspace.cpu_physical_memory_map base (block_len sw rows) with
      | none =>
        rw [update_display_map_null _ _ _ _ _ _ _ _ _ _ _ hres hm] at h
        simp only [Except.ok.injEq] at h
        subst h
        exact Or.inr (Or.inl ⟨hmis, rfl, rfl⟩)
      | some len1 =>
        by_cases hl : len1 = block_len sw rows
        · rw [hl] at hm
          rw [update_display_scanned _ _ _ _ _ _ _ _ _ _ _ hres hm] at h
          have hk := scan_rows_events (memory_region_sync_dirty_bitmap bm) cols rows sw
            drp dcp inv (rows - r).toNat
            (start_cursor (block_section aspace base sw rows).offset_within_region
              cols rows sw drp dcp r)
          refine Or.inr (Or.inr (Or.inr ⟨hmis, by rw [hl], ?_⟩))
          split at h
          · simp only [Except.ok.injEq] at h
            subst h
            exact ⟨_, _, rfl, hk, Or.inl rfl⟩
          · simp only [Except.ok.injEq] at h
            subst h
            exact ⟨_, _, rfl, hk, Or.inr rfl⟩
        · rw [update_display_map_short _ _ _ _ _ _ _ _ _ _ _ len1 hres hm hl] at h
          simp only [Except.ok.injEq] at h
          subst h
          exact Or.inr (Or.inr (Or.inl ⟨hmis, len1, rfl, hl, rfl⟩))
    · rw [update_display_assert _ _ _ _ _ _ _ _ _ _ _ hmis hbase] at h
      exact absurd h (by simp)

/-- The four ways `framebuffer_update_display_swap_pixman` returns, with the
calls made on each; on the scan path the line buffer is created before the row
loop and released after it. -/
theorem swap_pixman_paths (be : Bool) (aspace : AddressSpace)
    (lbc : Nat → Int → pixman_image_t) (m : Int → Byte) (bm : DirtyBitmap)
    (ds : DisplaySurface) (base : Nat) (mode : framebuffer_swapmode) (format : Nat)
    (inv r lr : Int) (o : Outcome)
    (h : framebuffer_update_display_swap_pixman be aspace lbc m bm ds base mode format
      inv r lr = .ok o) :
    (region_mismatch aspace base ds.stride ds.height ∧
      o.trace = [Event.find base (block_len ds.stride ds.height), Event.unref]) ∨
    (¬ region_mismatch aspace base ds.stride ds.height ∧
      aspace.cpu_physical_memory_map base (block_len ds.stride ds.height) = none ∧
      o.trace = [Event.find base (block_len ds.stride ds.height), Event.sync,
                 Event.map base (block_len ds.stride ds.height), Event.unref]) ∨
    (¬ region_mismatch aspace base ds.stride ds.height ∧
      ∃ len1, aspace.cpu_physical_memory_map base (block_len ds.stride ds.height) = some len1 ∧
        len1 ≠ block_len ds.stride ds.height ∧
        o.trace = [Event.find base (block_len ds.stride ds.height), Event.sync,
                   Event.map base (block_len ds.stride ds.height), Event.unmap len1,
                   Event.unref]) ∨
    (¬ region_mismatch aspace base ds.stride ds.height ∧
      aspace.cpu_physical_memory_map base (block_len ds.stride ds.height)
        = some (block_len ds.stride ds.height) ∧
      ∃ scan tail, o.trace = [Event.find base (block_len ds.stride ds.height), Event.sync,
                 Event.map base (block_len ds.stride ds.height),
                 Event.linebuf_create ds.width] ++ scan ++ (Event.linebuf_unref :: tail) ∧
        scan.all (fun e => is_query e || is_transform e) = true ∧
        (tail = [Event.unmap (block_len ds.stride ds.height), Event.unref] ∨
         tail = [Event.unmap (block_len ds.stride ds.height),
                 Event.reset_dirty
                   (block_section aspace base ds.stride ds.height).offset_within_region
                   (block_len ds.stride ds.height), Event.unref])) := by
  by_cases hmis : region_mismatch aspace base ds.stride ds.height
  · rw [swap_pixman_unresolved _ _ _ _ _ _ _ _ _ _ _ _ hmis] at h
    simp only [Except.ok.injEq] at h
    subst h
    exact Or.inl ⟨hmis, rfl⟩
  · by_cases hbase : (block_section aspace base ds.stride ds.height).offset_within_address_space
        = base
    · have hres := resolves_of_not_mismatch aspace base ds.stride ds.height hmis hbase
      cases hm : aspace.cpu_physical_memory_map base (block_len ds.stride ds.height) with
      | none =>
        rw [swap_pixman_map_null _ _ _ _ _ _ _ _ _ _ _ _ hres hm] at h
        simp only [Except.ok.injEq] at h
        subst h
        exact Or.inr (Or.inl ⟨hmis, rfl, rfl⟩)
      | some len1 =>
        by_cases hl : len1 = block_len ds.stride ds.height
        · rw [hl] at hm
          rw [swap_pixman_scanned _ _ _ _ _ _ _ _ _ _ _ _ hres hm] at h
          refine Or.inr (Or.inr (Or.inr ⟨hmis, by rw [hl], ?_⟩))
          split at h
          · exact absurd h (by simp)
          · rename_i sc hsc
            have hk := (scan_rows_swap_skeleton be (memory_region_sync_dirty_bitmap bm) m mode
              ds.width ds.width ds.height ds.stride 0 0 inv _ _ _ _ _ hsc
              ⟨rfl, rfl, rfl, rfl⟩).2.2.2
            split at h
            · simp only [Except.ok.injEq] at h
              subst h
              exact ⟨_, _, rfl, hk, Or.inl rfl⟩
            · simp only [Except.ok.injEq] at h
              subst h
              exact ⟨_, _, rfl, hk, Or.inr rfl⟩
        · rw [swap_pixman_map_short _ _ _ _ _ _ _ _ _ _ _ _ len1 hres hm hl] at h
          simp only [Except.ok.injEq] at h
          subst h
          exact Or.inr (Or.inr (Or.inl ⟨hmis, len1, rfl, hl, rfl⟩))
    · rw [swap_pixman_assert _ _ _ _ _ _ _ _ _ _ _ _ hmis hbase] at h
      exact absurd h (by simp)

/-! ### C11: every resource is released exactly once -/

theorem countP_scan_path (p : Event → Bool) (pre scan tail : List Event)
    (hscan : scan.all (fun e => is_query e || is_transform e) = true)
    (hp : ∀ e, p e = true → (is_query e || is_transform e) = false) :
    (pre ++ scan ++ tail).countP p = pre.countP p + tail.countP p := by
  rw [List.countP_append, List.countP_append, countP_scan_zero p scan hscan hp]
  rfl

theorem is_find_not_scan (e : Event) (h : is_find e = true) :
    (is_query e || is_transform e) = false := by
  cases e <;> simp_all [is_find, is_query, is_transform]

theorem is_map_not_scan (e : Event) (h : is_map e = true) :
    (is_query e || is_transform e) = false := by
  cases e <;> simp_all [is_map, is_query, is_transform]

theorem is_unmap_not_scan (e : Event) (h : is_unmap e = true) :
    (is_query e || is_transform e) = false := by
  cases e <;> simp_all [is_unmap, is_query, is_transform]

theorem is_linebuf_create_not_scan (e : Event) (h : is_linebuf_create e = true) :
    (is_query e || is_transform e) = false := by
  cases e <;> simp_all [is_linebuf_create, is_query, is_transform]

theorem eq_unref_not_scan (e : Event) (h : (e == Event.unref) = true) :
    (is_query e || is_transform e) = false := by
  cases e <;> simp_all [is_query, is_transform]

theorem eq_linebuf_unref_not_scan (e : Event) (h : (e == Event.linebuf_unref) = true) :
    (is_query e || is_transform e) = false := by
  cases e <;> simp_all [is_query, is_transform]

/-- C11: on every path on which `framebuffer_update_display` or
`framebuffer_update_display_swap_pixman` returns (region mismatch, null mapping,
short mapping, scan without or with touched rows), the region is looked up once
and released (`unref`) exactly once, and the block is unmapped exactly once when
`cpu_physical_memory_map` was called and answered a non-null pointer and not at
all otherwise; in the swap variant the line buffer is created and released exactly
once when the loop is reached (region resolved, block mapped in full) and neither
created nor released otherwise. -/
theorem resources_released_once (be : Bool) (aspace : AddressSpace)
    (linebuf_create : Nat → Int → pixman_image_t) (m : Int → Byte) (bm : DirtyBitmap)
    (ds : DisplaySurface) (base : Nat) (swapmode : framebuffer_swapmode) (format : Nat)
    (cols rows src_width dest_row_pitch dest_col_pitch invalidate first_row last_row : Int) :
    (∀ o, framebuffer_update_display aspace bm base cols rows src_width dest_row_pitch
        dest_col_pitch invalidate first_row last_row = .ok o →
      o.trace.countP is_find = 1 ∧ o.trace.count Event.unref = 1 ∧
      ((¬ region_mismatch aspace base src_width rows ∧
          ∃ len1, aspace.cpu_physical_memory_map base (block_len src_width rows) = some len1) →
        o.trace.countP is_map = 1 ∧ o.trace.countP is_unmap = 1) ∧
      (¬ (¬ region_mismatch aspace base src_width rows ∧
          ∃ len1, aspace.cpu_physical_memory_map base (block_len src_width rows) = some len1) →
        o.trace.countP is_unmap = 0)) ∧
    (∀ o, framebuffer_update_display_swap_pixman be aspace linebuf_create m bm ds base
        swapmode format invalidate first_row last_row = .ok o →
      o.trace.countP is_find = 1 ∧ o.trace.count Event.unref = 1 ∧
      ((¬ region_mismatch aspace base ds.stride ds.height ∧
          ∃ len1, aspace.cpu_physical_memory_map base (block_len ds.stride ds.height)
            = some len1) →
        o.trace.countP is_map = 1 ∧ o.trace.countP is_unmap = 1) ∧
      (¬ (¬ region_mismatch aspace base ds.stride ds.height ∧
          ∃ len1, aspace.cpu_physical_memory_map base (block_len ds.stride ds.height)
            = some len1) →
        o.trace.countP is_unmap = 0) ∧
      ((¬ region_mismatch aspace base ds.stride ds.height ∧
          aspace.cpu_physical_memory_map base (block_len ds.stride ds.height)
            = some (block_len ds.stride ds.height)) →
        o.trace.countP is_linebuf_create = 1 ∧ o.trace.count Event.linebuf_unref = 1) ∧
      (¬ (¬ region_mismatch aspace base ds.stride ds.height ∧
          aspace.cpu_physical_memory_map base (block_len ds.stride ds.height)
            = some (block_len ds.stride ds.height)) →
        o.trace.countP is_linebuf_create = 0 ∧ o.trace.count Event.linebuf_unref = 0)) := by
  constructor
  · intro o h
    rcases update_display_paths _ _ _ _ _ _ _ _ _ _ _ o h with
      ⟨hmis, ht⟩ | ⟨hmis, hm, ht⟩ | ⟨hmis, len1, hm, hl, ht⟩ | ⟨hmis, hm, scan, tail, ht, hs, htail⟩
    · rw [ht]
      exact ⟨rfl, rfl, fun hc => absurd hmis hc.1, fun _ => rfl⟩
    · rw [ht]
      refine ⟨rfl, rfl, fun hc => ?_, fun _ => rfl⟩
      obtain ⟨_, l, hl⟩ := hc
      rw [hm] at hl
      exact absurd hl (by simp)
    · rw [ht]
      exact ⟨rfl, rfl, fun _ => ⟨rfl, rfl⟩, fun hc => absurd ⟨hmis, len1, hm⟩ hc⟩
    · rw [ht]
      simp only [List.count]
      rw [countP_scan_path _ _ _ _ hs is_find_not_scan,
        countP_scan_path _ _ _ _ hs eq_unref_not_scan,
        countP_scan_path _ _ _ _ hs is_map_not_scan,
        countP_scan_path _ _ _ _ hs is_unmap_not_scan]
      rcases htail with htail | htail <;> rw [htail] <;>
        exact ⟨rfl, rfl, fun _ => ⟨rfl, rfl⟩, fun hc => absurd ⟨hmis, _, hm⟩ hc⟩
  · intro o h
    rcases swap_pixman_paths _ _ _ _ _ _ _ _ _ _ _ _ o h with
      ⟨hmis, ht⟩ | ⟨hmis, hm, ht⟩ | ⟨hmis, len1, hm, hl, ht⟩ | ⟨hmis, hm, scan, tail, ht, hs, htail⟩
    · rw [ht]
      exact ⟨rfl, rfl, fun hc => absurd hmis hc.1, fun _ => rfl, fun hc => absurd hmis hc.1,
        fun _ => ⟨rfl, rfl⟩⟩
    · rw [ht]
      refine ⟨rfl, rfl, fun hc => ?_, fun _ => rfl, fun hc => ?_, fun _ => ⟨rfl, rfl⟩⟩
      · obtain ⟨_, l, hl⟩ := hc
        rw [hm] at hl
        exact absurd hl (by simp)
      · rw [hm] at hc
        exact absurd hc.2 (by simp)
    · rw [ht]
      refine ⟨rfl, rfl, fun _ => ⟨rfl, rfl⟩, fun hc => absurd ⟨hmis, len1, hm⟩ hc, fun hc => ?_,
        fun _ => ⟨rfl, rfl⟩⟩
      rw [hm] at hc
      exact absurd (Option.some.inj hc.2) hl
    · rw [ht]
      simp only [List.count]
      rw [countP_scan_path _ _ _ _ hs is_find_not_scan,
        countP_scan_path _ _ _ _ hs eq_unref_not_scan,
        countP_scan_path _ _ _ _ hs is_map_not_scan,
        countP_scan_path _ _ _ _ hs is_unmap_not_scan,
        countP_scan_path _ _ _ _ hs is_linebuf_create_not_scan,
        countP_scan_path _ _ _ _ hs eq_linebuf_unref_not_scan]
      rcases htail with htail | htail <;> rw [htail] <;>
        exact ⟨rfl, rfl, fun _ => ⟨rfl, rfl⟩, fun hc => absurd ⟨hmis, _, hm⟩ hc,
          fun _ => ⟨rfl, rfl⟩, fun hc => absurd ⟨hmis, hm⟩ hc⟩

theorem demo_space_resolves (base : Nat) (sw rows : Int) :
    ¬ region_mismatch demo_space base sw rows := by
  simp [region_mismatch, block_section, demo_space, memory_region_is_ram]

/-- Instance of C11: the scan path of both entry points (`rows = 4`,
`src_width = 16`, row 2 dirty). -/
theorem resources_released_once_witness :
    (∃ o, framebuffer_update_display demo_space { dirty := [56], pending := [] } 0 4 4 16 16 4
        0 0 7 = .ok o ∧ o.trace.countP is_find = 1 ∧ o.trace.count Event.unref = 1 ∧
      o.trace.countP is_map = 1 ∧ o.trace.countP is_unmap = 1) ∧
    (∃ o, framebuffer_update_display_swap_pixman false demo_space demo_linebuf demo_block
        { dirty := [56], pending := [] } { width := 4, height := 4, stride := 16 } 0
        framebuffer_swapmode.FB_SWAP_32_BYTES 0 0 0 7 = .ok o ∧
      o.trace.countP is_find = 1 ∧ o.trace.count Event.unref = 1 ∧
      o.trace.countP is_unmap = 1 ∧
      o.trace.countP is_linebuf_create = 1 ∧ o.trace.count Event.linebuf_unref = 1) :=
  ⟨⟨_, rfl,
    ((resources_released_once false demo_space demo_linebuf demo_block
      { dirty := [56], pending := [] } { width := 4, height := 4, stride := 16 } 0
      framebuffer_swapmode.FB_SWAP_32_BYTES 0 4 4 16 16 4 0 0 7).1 _ rfl).1,
    ((resources_released_once false demo_space demo_linebuf demo_block
      { dirty := [56], pending := [] } { width := 4, height := 4, stride := 16 } 0
      framebuffer_swapmode.FB_SWAP_32_BYTES 0 4 4 16 16 4 0 0 7).1 _ rfl).2.1,
    (((resources_released_once false demo_space demo_linebuf demo_block
      { dirty := [56], pending := [] } { width := 4, height := 4, stride := 16 } 0
      framebuffer_swapmode.FB_SWAP_32_BYTES 0 4 4 16 16 4 0 0 7).1 _ rfl).2.2.1
        ⟨demo_space_resolves 0 16 4, _, rfl⟩).1,
    (((resources_released_once false demo_space demo_linebuf demo_block
      { dirty := [56], pending := [] } { width := 4, height := 4, stride := 16 } 0
      framebuffer_swapmode.FB_SWAP_32_BYTES 0 4 4 16 16 4 0 0 7).1 _ rfl).2.2.1
        ⟨demo_space_resolves 0 16 4, _, rfl⟩).2⟩,
   ⟨_, rfl,
    ((resources_released_once false demo_space demo_linebuf demo_block
      { dirty := [56], pending := [] } { width := 4, height := 4, stride := 16 } 0
      framebuffer_swapmode.FB_SWAP_32_BYTES 0 4 4 16 16 4 0 0 7).2 _ rfl).1,
    ((resources_released_once false demo_space demo_linebuf demo_block
      { dirty := [56], pending := [] } { width := 4, height := 4, stride := 16 } 0
      framebuffer_swapmode.FB_SWAP_32_BYTES 0 4 4 16 16 4 0 0 7).2 _ rfl).2.1,
    (((resources_released_once false demo_space demo_linebuf demo_block
      { dirty := [56], pending := [] } { width := 4, height := 4, stride := 16 } 0
      framebuffer_swapmode.FB_SWAP_32_BYTES 0 4 4 16 16 4 0 0 7).2 _ rfl).2.2.1
        ⟨demo_space_resolves 0 16 4, _, rfl⟩).2,
    (((resources_released_once false demo_space demo_linebuf demo_block
      { dirty := [56], pending := [] } { width := 4, height := 4, stride := 16 } 0
      framebuffer_swapmode.FB_SWAP_32_BYTES 0 4 4 16 16 4 0 0 7).2 _ rfl).2.2.2.2.1
        ⟨demo_space_resolves 0 16 4, rfl⟩).1,
    (((resources_released_once false demo_space demo_linebuf demo_block
      { dirty := [56], pending := [] } { width := 4, height := 4, stride := 16 } 0
      framebuffer_swapmode.FB_SWAP_32_BYTES 0 4 4 16 16 4 0 0 7).2 _ rfl).2.2.2.2.1
        ⟨demo_space_resolves 0 16 4, rfl⟩).2⟩⟩

/-! ### C12 and C16: the pre-adjusted destination base -/

/-- C14: on a line buffer of non-negative stride `framebuffer_swap` returns and,
in mode `FB_SWAP_16_BYTES`, writes `d[2k] = s[2k+1]` and `d[2k+1] = s[2k]` for
every `k < stride / 2`; in mode `FB_SWAP_32_BYTES` it writes `d[4k+b] = s[4k+3-b]`
for every `k < stride / 4` and `b` in `0..3`; in both modes every byte beyond the
`stride / 2` (resp. `stride / 4`) units is left as it was. -/
theorem swap_byte_modes_reference (be : Bool) (dest : pixman_image_t) (m : Int → Byte)
    (src : Int) (hs : 0 ≤ dest.stride) :
    (∃ out, framebuffer_swap be framebuffer_swapmode.FB_SWAP_16_BYTES dest m src = .ok out ∧
      (∀ k : Nat, k < dest.stride.toNat / 2 →
        out.data (2 * k) = m (src + ((2 * k + 1 : Nat) : Int)) ∧
        out.data (2 * k + 1) = m (src + ((2 * k : Nat) : Int))) ∧
      (∀ q : Nat, 2 * (dest.stride.toNat / 2) ≤ q → out.data q = dest.data q)) ∧
    (∃ out, framebuffer_swap be framebuffer_swapmode.FB_SWAP_32_BYTES dest m src = .ok out ∧
      (∀ k b : Nat, k < dest.stride.toNat / 4 → b < 4 →
        out.data (4 * k + b) = m (src + ((4 * k + 3 - b : Nat) : Int))) ∧
      (∀ q : Nat, 4 * (dest.stride.toNat / 4) ≤ q → out.data q = dest.data q)) := by
  constructor
  · obtain ⟨out, ho, _, hin, hout⟩ := framebuffer_swap_bytes be
      framebuffer_swapmode.FB_SWAP_16_BYTES dest m src (by decide) hs
    refine ⟨out, ho, ?_, hout⟩
    intro k hk
    have h0 := hin k 0 hk (by decide)
    have h1 := hin k 1 hk (by decide)
    simp only [unit_size, unit_source] at h0 h1
    exact ⟨h0, h1⟩
  · obtain ⟨out, ho, _, hin, hout⟩ := framebuffer_swap_bytes be
      framebuffer_swapmode.FB_SWAP_32_BYTES dest m src (by decide) hs
    refine ⟨out, ho, ?_, hout⟩
    intro k b hk hb
    have h0 := hin k b hk hb
    simp only [unit_size, unit_source] at h0
    rw [h0]
    congr 2
    omega

/-- Instance of C14: the four-byte row `0x44, 0x33, 0x22, 0x11` in a line buffer
of stride 4. -/
theorem swap_byte_modes_reference_witness :
    (∃ out, framebuffer_swap false framebuffer_swapmode.FB_SWAP_16_BYTES demo_line4
        demo_unit_row 0 = .ok out ∧
      (∀ k : Nat, k < demo_line4.stride.toNat / 2 →
        out.data (2 * k) = demo_unit_row (0 + ((2 * k + 1 : Nat) : Int)) ∧
        out.data (2 * k + 1) = demo_unit_row (0 + ((2 * k : Nat) : Int))) ∧
      (∀ q : Nat, 2 * (demo_line4.stride.toNat / 2) ≤ q → out.data q = demo_line4.data q)) ∧
    (∃ out, framebuffer_swap false framebuffer_swapmode.FB_SWAP_32_BYTES demo_line4
        demo_unit_row 0 = .ok out ∧
      (∀ k b : Nat, k < demo_line4.stride.toNat / 4 → b < 4 →
        out.data (4 * k + b) = demo_unit_row (0 + ((4 * k + 3 - b : Nat) : Int))) ∧
      (∀ q : Nat, 4 * (demo_line4.stride.toNat / 4) ≤ q → out.data q = demo_line4.data q)) ∧
    (framebuffer_swap false framebuffer_swapmode.FB_SWAP_16_BYTES demo_line4 demo_unit_row
      0).toOption.map line_bytes = some [0x33, 0x44, 0x11, 0x22] ∧
    (framebuffer_swap false framebuffer_swapmode.FB_SWAP_32_BYTES demo_line4 demo_unit_row
      0).toOption.map line_bytes = some [0x11, 0x22, 0x33, 0x44] :=
  ⟨(swap_byte_modes_reference false demo_line4 demo_unit_row 0 (by decide)).1,
   (swap_byte_modes_reference false demo_line4 demo_unit_row 0 (by decide)).2,
   by decide, by decide⟩

/-! ### C15: the change accumulator -/

/-- The rows drawn by the loop lie in `[c.i, rows)`; `last` is unchanged when no
row is drawn and is otherwise the greatest row drawn. -/
theorem scan_rows_last (bm : DirtyBitmap) (cols rows sw drp dcp inv : Int) :
    ∀ (n : Nat) (c : Cursor),
      (∀ x ∈ transform_rows (scan_rows bm cols rows sw drp dcp inv n c).2, c.i ≤ x ∧ x < rows) ∧
      (transform_rows (scan_rows bm cols rows sw drp dcp inv n c).2 = [] →
        (scan_rows bm cols rows sw drp dcp inv n c).1.last = c.last) ∧
      (transform_rows (scan_rows bm cols rows sw drp dcp inv n c).2 ≠ [] →
        (scan_rows bm cols rows sw drp dcp inv n c).1.last
            ∈ transform_rows (scan_rows bm cols rows sw drp dcp inv n c).2 ∧
        ∀ x ∈ transform_rows (scan_rows bm cols rows sw drp dcp inv n c).2,
          x ≤ (scan_rows bm cols rows sw drp dcp inv n c).1.last) := by
  intro n
  induction n with
  | zero => intro c; simp [scan_rows, transform_rows]
  | succ n ih =>
    intro c
    by_cases hlt : c.i < rows
    · cases ht : touched bm sw inv c
      · rw [scan_rows_clean _ _ _ _ _ _ _ _ _ hlt ht]
        obtain ⟨h1, h2, h3⟩ := ih (step_clean sw drp c)
        have hT : transform_rows ([Event.get_dirty c.addr (to_hwaddr sw)]
            ++ (scan_rows bm cols rows sw drp dcp inv n (step_clean sw drp c)).2)
            = transform_rows (scan_rows bm cols rows sw drp dcp inv n (step_clean sw drp c)).2 := by
          rw [transform_rows_append]; rfl
        simp only [hT]
        refine ⟨fun x hx => ?_, h2, h3⟩
        have := h1 x hx
        have hi : (step_clean sw drp c).i = c.i + 1 := rfl
        omega
      · rw [scan_rows_touched _ _ _ _ _ _ _ _ _ hlt ht]
        obtain ⟨h1, h2, h3⟩ := ih (step_touched sw drp c)
        have hT : transform_rows ([Event.get_dirty c.addr (to_hwaddr sw),
              Event.fn c.i c.dest c.src cols dcp]
            ++ (scan_rows bm cols rows sw drp dcp inv n (step_touched sw drp c)).2)
            = c.i :: transform_rows
                (scan_rows bm cols rows sw drp dcp inv n (step_touched sw drp c)).2 := by
          rw [transform_rows_append]; rfl
        simp only [hT]
        have hi : (step_touched sw drp c).i = c.i + 1 := rfl
        have hl : (step_touched sw drp c).last = c.i := rfl
        refine ⟨fun x hx => ?_, fun hc => absurd hc (by simp), fun _ => ?_⟩
        · rcases List.mem_cons.mp hx with hx | hx
          · omega
          · have := h1 x hx
            omega
        · by_cases hT2 : transform_rows
              (scan_rows bm cols rows sw drp dcp inv n (step_touched sw drp c)).2 = []
          · have := h2 hT2
            rw [hT2, this, hl]
            simp
          · obtain ⟨h4, h5⟩ := h3 hT2
            refine ⟨List.mem_cons_of_mem _ h4, fun x hx => ?_⟩
            rcases List.mem_cons.mp hx with hx | hx
            · have := h1 _ h4
              omega
            · exact h5 x hx
    · rw [scan_rows_done _ _ _ _ _ _ _ _ _ hlt]
      simp [transform_rows]

/-- From a non-negative row with nothing recorded, `first` stays `-1` when no
row is drawn and is otherwise the least row drawn. -/
theorem scan_rows_first (bm : DirtyBitmap) (cols rows sw drp dcp inv : Int) :
    ∀ (n : Nat) (c : Cursor), 0 ≤ c.i → c.first = -1 →
      (transform_rows (scan_rows bm cols rows sw drp dcp inv n c).2 = [] →
        (scan_rows bm cols rows sw drp dcp inv n c).1.first = -1) ∧
      (transform_rows (scan_rows bm cols rows sw drp dcp inv n c).2 ≠ [] →
        (scan_rows bm cols rows sw drp dcp inv n c).1.first
            ∈ transform_rows (scan_rows bm cols rows sw drp dcp inv n c).2 ∧
        ∀ x ∈ transform_rows (scan_rows bm cols rows sw drp dcp inv n c).2,
          (scan_rows bm cols rows sw drp dcp inv n c).1.first ≤ x) := by
  intro n
  induction n with
  | zero => intro c _ hf; simp [scan_rows, transform_rows, hf]
  | succ n ih =>
    intro c h0 hf
    by_cases hlt : c.i < rows
    · cases ht : touched bm sw inv c
      · rw [scan_rows_clean _ _ _ _ _ _ _ _ _ hlt ht]
        have hT : transform_rows ([Event.get_dirty c.addr (to_hwaddr sw)]
            ++ (scan_rows bm cols rows sw drp dcp inv n (step_clean sw drp c)).2)
            = transform_rows (scan_rows bm cols rows sw drp dcp inv n (step_clean sw drp c)).2 := by
          rw [transform_rows_append]; rfl
        simp only [hT]
        exact ih (step_clean sw drp c)
          (by have : (step_clean sw drp c).i = c.i + 1 := rfl
              omega) hf
      · rw [scan_rows_touched _ _ _ _ _ _ _ _ _ hlt ht]
        have hT : transform_rows ([Event.get_dirty c.addr (to_hwaddr sw),
              Event.fn c.i c.dest c.src cols dcp]
            ++ (scan_rows bm cols rows sw drp dcp inv n (step_touched sw drp c)).2)
            = c.i :: transform_rows
                (scan_rows bm cols rows sw drp dcp inv n (step_touched sw drp c)).2 := by
          rw [transform_rows_append]; rfl
        simp only [hT]
        have hf1 : (step_touched sw drp c).first = c.i := by
          simp only [step_touched]; rw [if_pos hf]
        have hk := scan_rows_first_kept bm cols rows sw drp dcp inv n (step_touched sw drp c)
          (by rw [hf1]; exact h0)
        rw [hf1] at hk
        have hb := (scan_rows_last bm cols rows sw drp dcp inv n (step_touched sw drp c)).1
        have hi : (step_touched sw drp c).i = c.i + 1 := rfl
        refine ⟨fun hc => absurd hc (by simp), fun _ => ?_⟩
        rw [hk]
        refine ⟨List.mem_cons_self _ _, fun x hx => ?_⟩
        rcases List.mem_cons.mp hx with hx | hx
        · omega
        · have := hb x hx
          omega
    · rw [scan_rows_done _ _ _ _ _ _ _ _ _ hlt]
      simp [transform_rows, hf]

/-- C15: for every call of `framebuffer_update_display` whose region resolves and
maps, with resume row `≥ 0`, the call returns, the reported span is empty
(`*first_row = -1`) if and only if the transform was called on no row, and
otherwise `*first_row` is the least and `*last_row` the greatest of the rows on
which the transform was called. -/
theorem accumulator_reports_min_max (aspace : AddressSpace) (bm : DirtyBitmap) (base : Nat)
    (cols rows src_width dest_row_pitch dest_col_pitch invalidate first_row last_row : Int)
    (hres : region_resolves aspace base src_width rows)
    (hmap : block_maps aspace base src_width rows)
    (h0 : 0 ≤ first_row) :
    ∃ o, framebuffer_update_display aspace bm base cols rows src_width dest_row_pitch
        dest_col_pitch invalidate first_row last_row = .ok o ∧
      (o.first_row = -1 ↔ transform_rows o.trace = []) ∧
      (transform_rows o.trace ≠ [] →
        o.first_row ∈ transform_rows o.trace ∧ o.last_row ∈ transform_rows o.trace ∧
        ∀ x ∈ transform_rows o.trace, o.first_row ≤ x ∧ x ≤ o.last_row) := by
  rw [update_display_scanned _ _ _ _ _ _ _ _ _ _ _ hres hmap]
  have hF := scan_rows_first (memory_region_sync_dirty_bitmap bm) cols rows src_width
    dest_row_pitch dest_col_pitch invalidate (rows - first_row).toNat
    (start_cursor (block_section aspace base src_width rows).offset_within_region
      cols rows src_width dest_row_pitch dest_col_pitch first_row) h0 rfl
  have hL := scan_rows_last (memory_region_sync_dirty_bitmap bm) cols rows src_width
    dest_row_pitch dest_col_pitch invalidate (rows - first_row).toNat
    (start_cursor (block_section aspace base src_width rows).offset_within_region
      cols rows src_width dest_row_pitch dest_col_pitch first_row)
  split
  · rename_i hneg
    have hT := scan_rows_first_neg (memory_region_sync_dirty_bitmap bm) cols rows src_width
      dest_row_pitch dest_col_pitch invalidate (rows - first_row).toNat _ h0 rfl hneg
    have hT2 : transform_rows ([Event.find base (block_len src_width rows), Event.sync,
        Event.map base (block_len src_width rows)]
        ++ (scan_rows (memory_region_sync_dirty_bitmap bm) cols rows src_width dest_row_pitch
            dest_col_pitch invalidate (rows - first_row).toNat
            (start_cursor (block_section aspace base src_width rows).offset_within_region
              cols rows src_width dest_row_pitch dest_col_pitch first_row)).2
        ++ [Event.unmap (block_len src_width rows), Event.unref]) = [] := by
      simp only [transform_rows_append, hT]
      rfl
    refine ⟨_, rfl, ⟨fun _ => hT2, fun _ => rfl⟩, fun hc => absurd hT2 hc⟩
  · rename_i hpos
    have hT2 : transform_rows ([Event.find base (block_len src_width rows), Event.sync,
        Event.map base (block_len src_width rows)]
        ++ (scan_rows (memory_region_sync_dirty_bitmap bm) cols rows src_width dest_row_pitch
            dest_col_pitch invalidate (rows - first_row).toNat
            (start_cursor (block_section aspace base src_width rows).offset_within_region
              cols rows src_width dest_row_pitch dest_col_pitch first_row)).2
        ++ [Event.unmap (block_len src_width rows),
            Event.reset_dirty (block_section aspace base src_width rows).offset_within_region
              (block_len src_width rows), Event.unref])
        = transform_rows (scan_rows (memory_region_sync_dirty_bitmap bm) cols rows src_width
            dest_row_pitch dest_col_pitch invalidate (rows - first_row).toNat
            (start_cursor (block_section aspace base src_width rows).offset_within_region
              cols rows src_width dest_row_pitch dest_col_pitch first_row)).2 := by
      simp only [transform_rows_append]
      simp [transform_rows]
    have hne : transform_rows (scan_rows (memory_region_sync_dirty_bitmap bm) cols rows
        src_width dest_row_pitch dest_col_pitch invalidate (rows - first_row).toNat
        (start_cursor (block_section aspace base src_width rows).offset_within_region
          cols rows src_width dest_row_pitch dest_col_pitch first_row)).2 ≠ [] := by
      intro hc
      have := hF.1 hc
      omega
    refine ⟨_, rfl, ?_, ?_⟩
    · simp only [hT2]
      constructor
      · intro hc; omega
      · intro hc; exact absurd hc hne
    · simp only [hT2]
      intro _
      obtain ⟨f1, f2⟩ := hF.2 hne
      obtain ⟨l1, l2⟩ := hL.2.2 hne
      exact ⟨f1, l1, fun x hx => ⟨f2 x hx, l2 x hx⟩⟩

/-- Instance of C15, the scenario of the specification: `rows = 4`, only row 2
dirty, resume row `0`: the call reports `first_row = last_row = 2`. -/
theorem accumulator_reports_min_max_witness :
    (∃ o, framebuffer_update_display demo_space { dirty := [56], pending := [] } 0 4 4 16 16 4
        0 0 7 = .ok o ∧ o.first_row = 2 ∧ o.last_row = 2 ∧ transform_rows o.trace = [2]) ∧
    ∃ o, framebuffer_update_display demo_space { dirty := [56], pending := [] } 0 4 4 16 16 4
        0 0 7 = .ok o ∧
      (o.first_row = -1 ↔ transform_rows o.trace = []) ∧
      (transform_rows o.trace ≠ [] →
        o.first_row ∈ transform_rows o.trace ∧ o.last_row ∈ transform_rows o.trace ∧
        ∀ x ∈ transform_rows o.trace, o.first_row ≤ x ∧ x ≤ o.last_row) :=
  ⟨⟨_, rfl, rfl, rfl, rfl⟩,
   accumulator_reports_min_max demo_space { dirty := [56], pending := [] } 0 4 4 16 16 4 0 0 7
    ⟨rfl, rfl, rfl⟩ rfl (by decide)⟩

/-! ### C17: one scan skeleton -/

theorem filter_skeleton_scan (l : List Event)
    (hl : l.all (fun e => is_query e || is_transform e) = true) :
    l.filter is_skeleton = l.filter is_query := by
  apply List.filter_congr
  intro e he
  rw [List.all_eq_true] at hl
  have := hl e he
  cases e <;> simp_all [is_query, is_transform, is_skeleton]

/-- C17: for every collaborator state (region lookup, mapping, dirty bitmap),
swap mode other than `FB_SWAP_NONE`, `invalidate` flag and resume row,
`framebuffer_update_display_swap_pixman` on a surface of width `w`, height `h` and
stride `s` (its line buffer of non-negative stride) and `framebuffer_update_display`
called with `cols = w`, `rows = h`, `src_width = s` and any pitches either both
stop at the assertion of line 63, or both return, with the same `*first_row` and
`*last_row`, the same rows drawn, the same sequence of find / sync / map / query /
unmap / clear / unref calls and the same dirty bitmap. -/
theorem entry_points_share_skeleton (be : Bool) (aspace : AddressSpace)
    (linebuf_create : Nat → Int → pixman_image_t) (m : Int → Byte) (bm : DirtyBitmap)
    (ds : DisplaySurface) (base : Nat) (swapmode : framebuffer_swapmode) (format : Nat)
    (dest_row_pitch dest_col_pitch invalidate first_row last_row : Int)
    (hmode : swapmode ≠ framebuffer_swapmode.FB_SWAP_NONE)
    (hstride : 0 ≤ (linebuf_create format ds.width).stride) :
    (framebuffer_update_display_swap_pixman be aspace linebuf_create m bm ds base swapmode
        format invalidate first_row last_row = .error Fatal.assert_failed ∧
      framebuffer_update_display aspace bm base ds.width ds.height ds.stride dest_row_pitch
        dest_col_pitch invalidate first_row last_row = .error Fatal.assert_failed) ∨
    (∃ o1 o2,
      framebuffer_update_display_swap_pixman be aspace linebuf_create m bm ds base swapmode
        format invalidate first_row last_row = .ok o1 ∧
      framebuffer_update_display aspace bm base ds.width ds.height ds.stride dest_row_pitch
        dest_col_pitch invalidate first_row last_row = .ok o2 ∧
      o1.first_row = o2.first_row ∧ o1.last_row = o2.last_row ∧
      transform_rows o1.trace = transform_rows o2.trace ∧
      o1.trace.filter is_skeleton = o2.trace.filter is_skeleton ∧
      o1.bitmap = o2.bitmap) := by
  by_cases hmis : region_mismatch aspace base ds.stride ds.height
  · right
    rw [swap_pixman_unresolved _ _ _ _ _ _ _ _ _ _ _ _ hmis,
      update_display_unresolved _ _ _ _ _ _ _ _ _ _ _ hmis]
    exact ⟨_, _, rfl, rfl, rfl, rfl, rfl, rfl, rfl⟩
  · by_cases hbase : (block_section aspace base ds.stride ds.height).offset_within_address_space
        = base
    · right
      have hres := resolves_of_not_mismatch aspace base ds.stride ds.height hmis hbase
      cases hm : aspace.cpu_physical_memory_map base (block_len ds.stride ds.height) with
      | none =>
        rw [swap_pixman_map_null _ _ _ _ _ _ _ _ _ _ _ _ hres hm,
          update_display_map_null _ _ _ _ _ _ _ _ _ _ _ hres hm]
        exact ⟨_, _, rfl, rfl, rfl, rfl, rfl, rfl, rfl⟩
      | some len1 =>
        by_cases hl : len1 = block_len ds.stride ds.height
        · rw [hl] at hm
          rw [swap_pixman_scanned _ _ _ _ _ _ _ _ _ _ _ _ hres hm,
            update_display_scanned _ _ _ _ _ _ _ _ _ _ _ hres hm]
          obtain ⟨sc, hsc⟩ := scan_rows_swap_returns be (memory_region_sync_dirty_bitmap bm) m
            swapmode ds.width ds.height ds.stride invalidate hmode
            (ds.height - first_row).toNat
            (start_cursor_swap
              (block_section aspace base ds.stride ds.height).offset_within_region
              ds.stride first_row) (linebuf_create format ds.width) hstride
          obtain ⟨hw, hq, ht, hk⟩ := scan_rows_swap_skeleton be
            (memory_region_sync_dirty_bitmap bm) m swapmode ds.width ds.width ds.height
            ds.stride dest_row_pitch dest_col_pitch invalidate (ds.height - first_row).toNat
            (start_cursor_swap
              (block_section aspace base ds.stride ds.height).offset_within_region
              ds.stride first_row)
            (start_cursor (block_section aspace base ds.stride ds.height).offset_within_region
              ds.width ds.height ds.stride dest_row_pitch dest_col_pitch first_row)
            (linebuf_create format ds.width) sc hsc ⟨rfl, rfl, rfl, rfl⟩
          have hg := scan_rows_events (memory_region_sync_dirty_bitmap bm) ds.width ds.height
            ds.stride dest_row_pitch dest_col_pitch invalidate (ds.height - first_row).toNat
            (start_cursor (block_section aspace base ds.stride ds.height).offset_within_region
              ds.width ds.height ds.stride dest_row_pitch dest_col_pitch first_row)
          obtain ⟨_, _, hf, hlast⟩ := hw
          rw [hsc]
          simp only []
          rw [hf]
          split
          · refine ⟨_, _, rfl, rfl, rfl, rfl, ?_, ?_, rfl⟩
            · simp only [transform_rows_append, ht]
              rfl
            · simp only [List.filter_append, filter_skeleton_scan _ hk,
                filter_skeleton_scan _ hg, hq]
              rfl
          · refine ⟨_, _, rfl, rfl, rfl, hlast, ?_, ?_, rfl⟩
            · simp only [transform_rows_append, ht]
              rfl
            · simp only [List.filter_append, filter_skeleton_scan _ hk,
                filter_skeleton_scan _ hg, hq]
              rfl
        · rw [swap_pixman_map_short _ _ _ _ _ _ _ _ _ _ _ _ len1 hres hm hl,
            update_display_map_short _ _ _ _ _ _ _ _ _ _ _ len1 hres hm hl]
          exact ⟨_, _, rfl, rfl, rfl, rfl, rfl, rfl, rfl⟩
    · left
      exact ⟨swap_pixman_assert _ _ _ _ _ _ _ _ _ _ _ _ hmis hbase,
        update_display_assert _ _ _ _ _ _ _ _ _ _ _ hmis hbase⟩

/-- Instance of C17: `w = 4`, `h = 4`, `s = 16`, row 2 dirty, mode
`FB_SWAP_16_BYTES` against the generic entry point with pitches `-16` and `4`: both
return the span `[2, 2]`. -/
theorem entry_points_share_skeleton_witness :
    ∃ o1 o2,
      framebuffer_update_display_swap_pixman false demo_space demo_linebuf demo_block
        { dirty := [56], pending := [] } { width := 4, height := 4, stride := 16 } 0
        framebuffer_swapmode.FB_SWAP_16_BYTES 0 0 0 7 = .ok o1 ∧
      framebuffer_update_display demo_space { dirty := [56], pending := [] } 0
        (DisplaySurface.width { width := 4, height := 4, stride := 16 })
        (DisplaySurface.height { width := 4, height := 4, stride := 16 })
        (DisplaySurface.stride { width := 4, height := 4, stride := 16 }) (-16) 4 0 0 7
        = .ok o2 ∧
      o1.first_row = o2.first_row ∧ o1.last_row = o2.last_row ∧
      transform_rows o1.trace = transform_rows o2.trace ∧
      o1.trace.filter is_skeleton = o2.trace.filter is_skeleton ∧
      o1.bitmap = o2.bitmap := by
  rcases entry_points_share_skeleton false demo_space demo_linebuf demo_block
    { dirty := [56], pending := [] } { width := 4, height := 4, stride := 16 } 0
    framebuffer_swapmode.FB_SWAP_16_BYTES 0 (-16) 4 0 0 7 (by decide) (by decide) with h | h
  · obtain ⟨o, ho⟩ := update_display_returns demo_space { dirty := [56], pending := [] } 0
      4 4 16 (-16) 4 0 0 7 rfl
    have h2 := h.2
    rw [show framebuffer_update_display demo_space { dirty := [56], pending := [] } 0
        (DisplaySurface.width { width := 4, height := 4, stride := 16 })
        (DisplaySurface.height { width := 4, height := 4, stride := 16 })
        (DisplaySurface.stride { width := 4, height := 4, stride := 16 }) (-16) 4 0 0 7
        = .ok o from ho] at h2
    exact absurd h2 (by simp)
  · exact h

/-! ### C18: termination -/

theorem event_len_scan (l : List Event)
    (hl : l.all (fun e => is_query e || is_transform e) = true) :
    ∀ e ∈ l, event_len e = none := by
  intro e he
  rw [List.all_eq_true] at hl
  have := hl e he
  cases e <;> simp_all [is_query, is_transform, event_len]

theorem event_len_path (L : Nat) (pre scan tail : List Event)
    (hpre : ∀ e ∈ pre, ∀ l, event_len e = some l → l = L)
    (hscan : scan.all (fun e => is_query e || is_transform e) = true)
    (htail : ∀ e ∈ tail, ∀ l, event_len e = some l → l = L) :
    ∀ e ∈ pre ++ scan ++ tail, ∀ l, event_len e = some l → l = L := by
  intro e he l hl
  rw [List.mem_append, List.mem_append] at he
  rcases he with (he | he) | he
  · exact hpre e he l hl
  · rw [event_len_scan scan hscan e he] at hl
    exact absurd hl (by simp)
  · exact htail e he l hl

/-- C19 (as stated) fails: the product is formed in `int` and then converted to
`hwaddr`.  `src_width = 65536`, `rows = 65536` give the length `0`, not `2^32`
(wrap-around of the `int` product); `src_width = -16`, `rows = 4` give
`2^64 - 64`, not `-64` (sign extension), and that is the length the lookup, the
mapping request and the clear are called with. -/
theorem block_length_counterexample :
    block_len 65536 65536 = 0 ∧ (block_len 65536 65536 : Int) ≠ 65536 * 65536 ∧
    block_len (-16) 4 = 18446744073709551552 ∧ (block_len (-16) 4 : Int) ≠ -16 * 4 ∧
    (∃ o, framebuffer_update_display demo_space { dirty := [100], pending := [] } 0 4 4 (-16)
        16 4 0 0 7 = .ok o ∧
      o.trace.filterMap event_len
        = [18446744073709551552, 18446744073709551552, 18446744073709551552]) :=
  ⟨by decide, by decide, by decide, by decide, ⟨_, rfl, rfl⟩⟩

/-- C19 (amended): when the product `src_width * rows` is non-negative and
representable as `int`, the byte length `src_len` equals it, and every region
lookup, mapping request and dirty clear made by a returning call of either entry
point carries exactly that length; a mapping of any other length takes the
short-mapping exit. -/
theorem block_length_is_product (be : Bool) (aspace : AddressSpace)
    (linebuf_create : Nat → Int → pixman_image_t) (m : Int → Byte) (bm : DirtyBitmap)
    (ds : DisplaySurface) (base : Nat) (swapmode : framebuffer_swapmode) (format : Nat)
    (cols rows src_width dest_row_pitch dest_col_pitch invalidate first_row last_row : Int) :
    (0 ≤ src_width * rows → src_width * rows < 2147483648 →
      (block_len src_width rows : Int) = src_width * rows ∧
      (∀ o, framebuffer_update_display aspace bm base cols rows src_width dest_row_pitch
          dest_col_pitch invalidate first_row last_row = .ok o →
        ∀ e ∈ o.trace, ∀ l, event_len e = some l → l = (src_width * rows).toNat) ∧
      (∀ len1, region_resolves aspace base src_width rows →
        aspace.cpu_physical_memory_map base (src_width * rows).toNat = some len1 →
        len1 ≠ (src_width * rows).toNat →
        framebuffer_update_display aspace bm base cols rows src_width dest_row_pitch
          dest_col_pitch invalidate first_row last_row =
          .ok { first_row := -1, last_row := last_row,
                bitmap := memory_region_sync_dirty_bitmap bm,
                trace := [Event.find base (src_width * rows).toNat, Event.sync,
                          Event.map base (src_width * rows).toNat, Event.unmap len1,
                          Event.unref] })) ∧
    (0 ≤ ds.stride * ds.height → ds.stride * ds.height < 2147483648 →
      ∀ o, framebuffer_update_display_swap_pixman be aspace linebuf_create m bm ds base
          swapmode format invalidate first_row last_row = .ok o →
        ∀ e ∈ o.trace, ∀ l, event_len e = some l → l = (ds.stride * ds.height).toNat) := by
  constructor
  · intro h0 h1
    have hL := block_len_toNat src_width rows h0 h1
    refine ⟨block_len_of_fits src_width rows h0 h1, ?_, ?_⟩
    · intro o h
      rw [← hL]
      rcases update_display_paths _ _ _ _ _ _ _ _ _ _ _ o h with
        ⟨_, ht⟩ | ⟨_, _, ht⟩ | ⟨_, len1, _, _, ht⟩ | ⟨_, _, scan, tail, ht, hs, htail⟩
      · rw [ht]
        intro e he l hl
        simp only [List.mem_cons, List.mem_singleton, List.not_mem_nil, or_false] at he
        rcases he with he | he <;> subst he <;> simp_all [event_len]
      · rw [ht]
        intro e he l hl
        simp only [List.mem_cons, List.mem_singleton, List.not_mem_nil, or_false] at he
        rcases he with he | he | he | he <;> subst he <;> simp_all [event_len]
      · rw [ht]
        intro e he l hl
        simp only [List.mem_cons, List.mem_singleton, List.not_mem_nil, or_false] at he
        rcases he with he | he | he | he | he <;> subst he <;> simp_all [event_len]
      · rw [ht]
        refine event_len_path _ _ _ _ ?_ hs ?_
        · intro e he l hl
          simp only [List.mem_cons, List.mem_singleton, List.not_mem_nil, or_false] at he
          rcases he with he | he | he <;> subst he <;> simp_all [event_len]
        · intro e he l hl
          rcases htail with htail | htail
          · subst htail
            simp only [List.mem_cons, List.mem_singleton, List.not_mem_nil, or_false] at he
            rcases he with he | he <;> subst he <;> simp_all [event_len]
          · subst htail
            simp only [List.mem_cons, List.mem_singleton, List.not_mem_nil, or_false] at he
            rcases he with he | he | he <;> subst he <;> simp_all [event_len]
    · intro len1 hres hm hne
      rw [← hL] at hm hne ⊢
      exact update_display_map_short _ _ _ _ _ _ _ _ _ _ _ len1 hres hm hne
  · intro h0 h1 o h
    rw [← block_len_toNat ds.stride ds.height h0 h1]
    rcases swap_pixman_paths _ _ _ _ _ _ _ _ _ _ _ _ o h with
      ⟨_, ht⟩ | ⟨_, _, ht⟩ | ⟨_, len1, _, _, ht⟩ | ⟨_, _, scan, tail, ht, hs, htail⟩
    · rw [ht]
      intro e he l hl
      simp only [List.mem_cons, List.mem_singleton, List.not_mem_nil, or_false] at he
      rcases he with he | he <;> subst he <;> simp_all [event_len]
    · rw [ht]
      intro e he l hl
      simp only [List.mem_cons, List.mem_singleton, List.not_mem_nil, or_false] at he
      rcases he with he | he | he | he <;> subst he <;> simp_all [event_len]
    · rw [ht]
      intro e he l hl
      simp only [List.mem_cons, List.mem_singleton, List.not_mem_nil, or_false] at he
      rcases he with he | he | he | he | he <;> subst he <;> simp_all [event_len]
    · rw [ht]
      refine event_len_path _ _ _ _ ?_ hs ?_
      · intro e he l hl
        simp only [List.mem_cons, List.mem_singleton, List.not_mem_nil, or_false] at he
        rcases he with he | he | he | he <;> subst he <;> simp_all [event_len]
      · intro e he l hl
        rcases htail with htail | htail
        · subst htail
          simp only [List.mem_cons, List.mem_singleton, List.not_mem_nil, or_false] at he
          rcases he with he | he | he <;> subst he <;> simp_all [event_len]
        · subst htail
          simp only [List.mem_cons, List.mem_singleton, List.not_mem_nil, or_false] at he
          rcases he with he | he | he | he <;> subst he <;> simp_all [event_len]

/-- Instance of the amended C19: `src_width = 16`, `rows = 4`, row 2 dirty: the
lookup, the mapping request and the clear all carry the length `64`. -/
theorem block_length_is_product_witness :
    (block_len 16 4 : Int) = 16 * 4 ∧
    (∃ o, framebuffer_update_display demo_space { dirty := [56], pending := [] } 0 4 4 16 16 4
        0 0 7 = .ok o ∧ o.trace.filterMap event_len = [64, 64, 64] ∧
      ∀ e ∈ o.trace, ∀ l, event_len e = some l → l = ((16 : Int) * 4).toNat) :=
  ⟨((block_length_is_product false demo_space demo_linebuf demo_block
      { dirty := [56], pending := [] } { width := 4, height := 4, stride := 16 } 0
      framebuffer_swapmode.FB_SWAP_32_BYTES 0 4 4 16 16 4 0 0 7).1 (by decide) (by decide)).1,
   ⟨_, rfl, rfl,
    ((block_length_is_product false demo_space demo_linebuf demo_block
      { dirty := [56], pending := [] } { width := 4, height := 4, stride := 16 } 0
      framebuffer_swapmode.FB_SWAP_32_BYTES 0 4 4 16 16 4 0 0 7).1 (by decide) (by decide)).2.1
      _ rfl⟩⟩

/-! ### C20: source accesses and the mapped block -/

end Framebuffer
